import Mathlib

/-
  Verification of the audio-engine core of the sound generator repository
  (src/hooks/useAudioEngine.ts), as a shallow embedding in Lean 4.

  JavaScript numbers are modelled by real numbers.  The Web Audio API is
  modelled by an explicit audio-context world `Ctx`: nodes live in a map
  from numeric ids to `Node` records, `connect`, `start`, `stop`,
  parameter assignment and `setValueAtTime` become explicit state
  transitions, and `stop()` on a source that is not live is modelled as
  an error (the failure mode the source guards against).  The React hook
  state (the `binauralNodes` ref, the drum-buffer map and the chord
  oscillator list) becomes the record `EngineState`.

  Sample data written into `AudioBuffer`s (the drum synthesis loops) is
  modelled by standalone functions `createKickSample`, `createSnareSample`
  and `createHihatSample`; `Math.random()` is an oracle `rnd : ℕ → ℝ`
  giving the value of the i-th call.
-/

set_option maxHeartbeats 2000000

noncomputable section

/-- Oscillator wave shapes (the `OscillatorType` values the UI can select). -/
inductive Waveform
  | sine
  | square
  | sawtooth
  | triangle
  deriving DecidableEq

/-- The kinds of Web Audio nodes the engine creates. -/
inductive NodeKind
  | destination
  | analyserNode
  | oscillator
  | gainNode
  | bufferSource
  | stereoPanner
  | channelMerger
  | delayNode
  | convolver
  deriving DecidableEq

/-- One `connect` edge: destination node id plus the output/input indices
(`toneGain.connect(merger, 0, 1)` passes explicit indices). -/
structure Conn where
  dst : ℕ
  outputIndex : ℕ
  inputIndex : ℕ
  deriving DecidableEq

/-- A `setValueAtTime(value, time)` event recorded on an `AudioParam`. -/
structure ParamEvent where
  value : ℝ
  time : ℝ

/-- Metadata of an `AudioBuffer` created by `ctx.createBuffer(channels, length,
sampleRate)`.  The sample data of drum buffers is modelled separately by the
`create*Sample` functions below. -/
structure BufferInfo where
  numberOfChannels : ℕ
  length : ℝ
  sampleRate : ℕ

/-- A Web Audio node: the union of the fields the engine touches.  `freq`,
`gain`, `pan`, `delayTime` are the `.value` of the corresponding params;
the `*Events` lists record `setValueAtTime` calls in order. -/
structure Node where
  kind : NodeKind
  freq : ℝ
  freqEvents : List ParamEvent
  gain : ℝ
  gainEvents : List ParamEvent
  pan : ℝ
  panEvents : List ParamEvent
  wave : Waveform
  delayTime : ℝ
  maxDelayTime : ℝ
  mergerInputs : ℕ
  fftSize : ℕ
  buffer : Option ℕ
  loop : Bool
  started : Bool
  stoppedFlag : Bool
  conns : List Conn

/-- A freshly constructed node of kind `k`, with Web Audio defaults
(oscillator frequency 440, gain 1, pan 0, analyser fftSize 2048). -/
def baseNode (k : NodeKind) : Node :=
  { kind := k
    freq := 440
    freqEvents := []
    gain := 1
    gainEvents := []
    pan := 0
    panEvents := []
    wave := .sine
    delayTime := 0
    maxDelayTime := 1
    mergerInputs := 0
    fftSize := 2048
    buffer := none
    loop := false
    started := false
    stoppedFlag := false
    conns := [] }

/-- The audio-context world: a fresh-id counter, the node store, the created
buffers and the audio clock. -/
structure Ctx where
  sampleRate : ℕ
  currentTime : ℝ
  nextId : ℕ
  node : ℕ → Option Node
  buffers : List BufferInfo

/-- Point update of the node store. -/
def updFn (f : ℕ → Option Node) (i : ℕ) (n : Node) : ℕ → Option Node :=
  fun j => if j = i then some n else f j

/-- Allocate a fresh node, returning its id. -/
def addNode (c : Ctx) (n : Node) : ℕ × Ctx :=
  (c.nextId,
   { c with nextId := c.nextId + 1, node := updFn c.node c.nextId n })

/-- Overwrite the node stored at id `i`. -/
def setNodeAt (c : Ctx) (i : ℕ) (n : Node) : Ctx :=
  { c with node := updFn c.node i n }

/-- Apply `f` to the node at id `i` (no-op if the id is unused). -/
def modifyNode (c : Ctx) (i : ℕ) (f : Node → Node) : Ctx :=
  match c.node i with
  | none => c
  | some n => setNodeAt c i (f n)

/-- `ctx.createOscillator()`. -/
def createOscillator (c : Ctx) : ℕ × Ctx := addNode c (baseNode .oscillator)

/-- `ctx.createGain()`. -/
def createGain (c : Ctx) : ℕ × Ctx := addNode c (baseNode .gainNode)

/-- `ctx.createStereoPanner()`. -/
def createStereoPanner (c : Ctx) : ℕ × Ctx := addNode c (baseNode .stereoPanner)

/-- `ctx.createChannelMerger(k)`. -/
def createChannelMerger (c : Ctx) (k : ℕ) : ℕ × Ctx :=
  addNode c { baseNode .channelMerger with mergerInputs := k }

/-- `ctx.createDelay(maxDelayTime)`. -/
def createDelay (c : Ctx) (maxDelay : ℝ) : ℕ × Ctx :=
  addNode c { baseNode .delayNode with maxDelayTime := maxDelay }

/-- `ctx.createConvolver()`. -/
def createConvolver (c : Ctx) : ℕ × Ctx := addNode c (baseNode .convolver)

/-- `ctx.createAnalyser()`. -/
def createAnalyserNode (c : Ctx) : ℕ × Ctx := addNode c (baseNode .analyserNode)

/-- `ctx.createBufferSource()`. -/
def createBufferSource (c : Ctx) : ℕ × Ctx := addNode c (baseNode .bufferSource)

/-- `ctx.createBuffer(channels, length, sampleRate)`: allocates a buffer and
returns its id. -/
def createBuffer (c : Ctx) (channels : ℕ) (length : ℝ) (sr : ℕ) : ℕ × Ctx :=
  (c.buffers.length,
   { c with buffers := c.buffers ++ [⟨channels, length, sr⟩] })

/-- `osc.type = w`. -/
def setWave (c : Ctx) (i : ℕ) (w : Waveform) : Ctx :=
  modifyNode c i (fun n => { n with wave := w })

/-- `osc.frequency.value = v`. -/
def setFreqValue (c : Ctx) (i : ℕ) (v : ℝ) : Ctx :=
  modifyNode c i (fun n => { n with freq := v })

/-- `g.gain.value = v`. -/
def setGainValue (c : Ctx) (i : ℕ) (v : ℝ) : Ctx :=
  modifyNode c i (fun n => { n with gain := v })

/-- `p.pan.value = v`. -/
def setPanValue (c : Ctx) (i : ℕ) (v : ℝ) : Ctx :=
  modifyNode c i (fun n => { n with pan := v })

/-- `d.delayTime.value = v`. -/
def setDelayTime (c : Ctx) (i : ℕ) (v : ℝ) : Ctx :=
  modifyNode c i (fun n => { n with delayTime := v })

/-- `src.buffer = b`. -/
def setBuffer (c : Ctx) (i : ℕ) (b : ℕ) : Ctx :=
  modifyNode c i (fun n => { n with buffer := some b })

/-- `src.loop = b`. -/
def setLoop (c : Ctx) (i : ℕ) (b : Bool) : Ctx :=
  modifyNode c i (fun n => { n with loop := b })

/-- `a.fftSize = v`. -/
def setFftSize (c : Ctx) (i : ℕ) (v : ℕ) : Ctx :=
  modifyNode c i (fun n => { n with fftSize := v })

/-- `osc.frequency.setValueAtTime(v, t)`. -/
def freqSetValueAtTime (c : Ctx) (i : ℕ) (v t : ℝ) : Ctx :=
  modifyNode c i (fun n => { n with freqEvents := n.freqEvents ++ [⟨v, t⟩] })

/-- `g.gain.setValueAtTime(v, t)`. -/
def gainSetValueAtTime (c : Ctx) (i : ℕ) (v t : ℝ) : Ctx :=
  modifyNode c i (fun n => { n with gainEvents := n.gainEvents ++ [⟨v, t⟩] })

/-- `p.pan.setValueAtTime(v, t)`. -/
def panSetValueAtTime (c : Ctx) (i : ℕ) (v t : ℝ) : Ctx :=
  modifyNode c i (fun n => { n with panEvents := n.panEvents ++ [⟨v, t⟩] })

/-- `a.connect(b)` (default output/input 0). -/
def connect (c : Ctx) (i j : ℕ) : Ctx :=
  modifyNode c i (fun n => { n with conns := n.conns ++ [⟨j, 0, 0⟩] })

/-- `a.connect(b, outIdx, inIdx)`. -/
def connectCh (c : Ctx) (i j oi ii : ℕ) : Ctx :=
  modifyNode c i (fun n => { n with conns := n.conns ++ [⟨j, oi, ii⟩] })

/-- `a.disconnect()`: removes every outgoing edge of `a`. -/
def disconnectNode (c : Ctx) (i : ℕ) : Ctx :=
  modifyNode c i (fun n => { n with conns := [] })

/-- `src.start()`. -/
def nodeStart (c : Ctx) (i : ℕ) : Ctx :=
  modifyNode c i (fun n => { n with started := true })

/-- The one failure mode the source guards against: `stop()` on a source
that is not currently running raises. -/
inductive AudioErr
  | invalidState
  deriving DecidableEq

/-- `src.stop()`: succeeds exactly on a started, not-yet-stopped source. -/
def nodeStop (c : Ctx) (i : ℕ) : Except AudioErr Ctx :=
  match c.node i with
  | none => .error .invalidState
  | some n =>
    if n.started && !n.stoppedFlag then
      .ok (setNodeAt c i { n with stoppedFlag := true })
    else
      .error .invalidState

/-- The `binauralNodes.current` ref: one nullable field per graph node. -/
structure BinauralHandle where
  leftOsc : Option ℕ
  rightOsc : Option ℕ
  leftGain : Option ℕ
  rightGain : Option ℕ
  noiseSource : Option ℕ
  noiseGain : Option ℕ
  toneGain : Option ℕ
  panNode : Option ℕ
  merger : Option ℕ
  delayNode : Option ℕ
  delayGain : Option ℕ
  convolverNode : Option ℕ
  reverbGain : Option ℕ
  deriving DecidableEq

/-- The all-null handle the hook initializes and `stopBinaural` resets to. -/
def emptyHandle : BinauralHandle :=
  { leftOsc := none, rightOsc := none, leftGain := none, rightGain := none
    noiseSource := none, noiseGain := none, toneGain := none, panNode := none
    merger := none, delayNode := none, delayGain := none
    convolverNode := none, reverbGain := none }

/-- The state of the `useAudioEngine` hook: the audio context and analyser
(null until the init effect runs), the binaural handle, the drum-buffer map
and the chord oscillator list. -/
structure EngineState where
  audioContext : Option Ctx
  analyser : Option ℕ
  binauralNodes : BinauralHandle
  drumBuffers : List (String × ℕ)
  chordOscillators : List ℕ

/-- The hook state before the init effect has run. -/
def blankEngine : EngineState :=
  { audioContext := none, analyser := none, binauralNodes := emptyHandle
    drumBuffers := [], chordOscillators := [] }

/-- `Map.get` on the drum-buffer map. -/
def mapGet (m : List (String × ℕ)) (k : String) : Option ℕ :=
  match m with
  | [] => none
  | (k', v) :: rest => if k' = k then some v else mapGet rest k

/-- `Map.set` on the drum-buffer map. -/
def mapSet (m : List (String × ℕ)) (k : String) (v : ℕ) : List (String × ℕ) :=
  match m with
  | [] => [(k, v)]
  | (k', v') :: rest =>
    if k' = k then (k, v) :: rest else (k', v') :: mapSet rest k v

/-- Sample `i` written by the `createKick` loop:
`Math.sin(60 * 2 * Math.PI * i / sampleRate) * Math.exp(-i / (sampleRate * 0.1)) * 0.5`. -/
def createKickSample (sr : ℕ) (i : ℕ) : ℝ :=
  Real.sin (60 * 2 * Real.pi * i / sr) * Real.exp (-(i : ℝ) / (sr * 0.1)) * 0.5

/-- Sample `i` written by the `createSnare` loop, with `rnd i` the value of the
`Math.random()` call for that sample:
`((Math.random() * 2 - 1) * 0.3 + Math.sin(200 * 2 * Math.PI * i / sampleRate) * 0.2) * Math.exp(-i / (sampleRate * 0.05))`. -/
def createSnareSample (rnd : ℕ → ℝ) (sr : ℕ) (i : ℕ) : ℝ :=
  ((rnd i * 2 - 1) * 0.3 + Real.sin (200 * 2 * Real.pi * i / sr) * 0.2) *
    Real.exp (-(i : ℝ) / (sr * 0.05))

/-- Sample `i` written by the `createHihat` loop:
`(Math.random() * 2 - 1) * Math.exp(-i / (sampleRate * 0.02)) * 0.3`. -/
def createHihatSample (rnd : ℕ → ℝ) (sr : ℕ) (i : ℕ) : ℝ :=
  (rnd i * 2 - 1) * Real.exp (-(i : ℝ) / (sr * 0.02)) * 0.3

/-- `loadDrumSamples(ctx)`: allocates the three drum buffers (kick 0.5 s,
snare 0.2 s, hihat 0.1 s, all mono at the context sample rate) and stores
them in the map under `kick`, `snare`, `hihat`.  Buffer sample data is
modelled by the `create*Sample` functions above. -/
def loadDrumSamples (c : Ctx) (m : List (String × ℕ)) :
    Ctx × List (String × ℕ) :=
  let (kickId, c) := createBuffer c 1 ((c.sampleRate : ℝ) * 0.5) c.sampleRate
  let m := mapSet m "kick" kickId
  let (snareId, c) := createBuffer c 1 ((c.sampleRate : ℝ) * 0.2) c.sampleRate
  let m := mapSet m "snare" snareId
  let (hihatId, c) := createBuffer c 1 ((c.sampleRate : ℝ) * 0.1) c.sampleRate
  let m := mapSet m "hihat" hihatId
  (c, m)

/-- The init effect: create the context (its destination node gets id 0),
create the analyser, set `fftSize = 2048`, connect it to the destination and
load the drum samples.  Returns the context/analyser-id/drum-map triple. -/
def initCtxTriple (sr : ℕ) : Ctx × ℕ × List (String × ℕ) :=
  let c : Ctx :=
    { sampleRate := sr, currentTime := 0, nextId := 0
      node := fun _ => none, buffers := [] }
  let (destId, c) := addNode c (baseNode .destination)
  let (analyserId, c) := createAnalyserNode c
  let c := setFftSize c analyserId 2048
  let c := connect c analyserId destId
  let (c, m) := loadDrumSamples c []
  (c, analyserId, m)

/-- The context produced by the init effect. -/
def initCtx (sr : ℕ) : Ctx := (initCtxTriple sr).1

/-- The hook state after the init effect has run, for sample rate `sr`. -/
def initEngine (sr : ℕ) : EngineState :=
  { audioContext := some (initCtx sr)
    analyser := some (initCtxTriple sr).2.1
    binauralNodes := emptyHandle
    drumBuffers := (initCtxTriple sr).2.2
    chordOscillators := [] }

/-- `createWhiteNoise(context)`: a two-second stereo buffer (its random
sample data is not tracked); returns the buffer id. -/
def createWhiteNoise (c : Ctx) : ℕ × Ctx :=
  createBuffer c 2 ((c.sampleRate : ℝ) * 2) c.sampleRate

/-- `leftOsc.disconnect()`-style guarded disconnect:
`if (node) node.disconnect()`. -/
def disconnectOpt (c : Ctx) (o : Option ℕ) : Ctx :=
  match o with
  | none => c
  | some i => disconnectNode c i

/-- `if (src) { src.stop(); src.disconnect() }`. -/
def stopAndDisconnect (c : Ctx) (o : Option ℕ) : Except AudioErr Ctx :=
  match o with
  | none => .ok c
  | some i =>
    match nodeStop c i with
    | .error e => .error e
    | .ok c' => .ok (disconnectNode c' i)

/-- The body of `stopBinaural`: stop and disconnect the three sources, then
disconnect the ten processing nodes, in source order. -/
def stopHandle (c : Ctx) (h : BinauralHandle) : Except AudioErr Ctx :=
  match stopAndDisconnect c h.leftOsc with
  | .error e => .error e
  | .ok c =>
    match stopAndDisconnect c h.rightOsc with
    | .error e => .error e
    | .ok c =>
      match stopAndDisconnect c h.noiseSource with
      | .error e => .error e
      | .ok c =>
        let c := disconnectOpt c h.leftGain
        let c := disconnectOpt c h.rightGain
        let c := disconnectOpt c h.noiseGain
        let c := disconnectOpt c h.toneGain
        let c := disconnectOpt c h.panNode
        let c := disconnectOpt c h.merger
        let c := disconnectOpt c h.delayNode
        let c := disconnectOpt c h.delayGain
        let c := disconnectOpt c h.convolverNode
        let c := disconnectOpt c h.reverbGain
        .ok c

/-- `stopBinaural()`: tear down every node of the current handle and reset
the handle to all-null.  (When no context exists the handle can hold no
nodes, so only the reset remains.) -/
def stopBinaural (s : EngineState) : Except AudioErr EngineState :=
  match s.audioContext with
  | none => .ok { s with binauralNodes := emptyHandle }
  | some c =>
    match stopHandle c s.binauralNodes with
    | .error e => .error e
    | .ok c' =>
      .ok { s with audioContext := some c', binauralNodes := emptyHandle }

/-- The graph-construction block of `startBinaural` (everything after the
initial `stopBinaural()` call), acting on the context `c` with analyser id
`a`.  Returns the updated context and the new handle. -/
def buildBinaural (c : Ctx) (a : ℕ) (baseFreq beatFreq noiseMix panValue : ℝ)
    (waveform : Waveform) : Ctx × BinauralHandle :=
  let (mergerId, c) := createChannelMerger c 2
  let (leftOscId, c) := createOscillator c
  let (rightOscId, c) := createOscillator c
  let (leftGainId, c) := createGain c
  let (rightGainId, c) := createGain c
  let (toneGainId, c) := createGain c
  let (noiseGainId, c) := createGain c
  let (panId, c) := createStereoPanner c
  let (delayId, c) := createDelay c 1.0
  let (delayGainId, c) := createGain c
  let (convolverId, c) := createConvolver c
  let (reverbGainId, c) := createGain c
  -- Set up oscillators
  let c := setWave c leftOscId waveform
  let c := setWave c rightOscId waveform
  let c := setFreqValue c leftOscId baseFreq
  let c := setFreqValue c rightOscId (baseFreq + beatFreq)
  -- Set up white noise
  let (noiseBufId, c) := createWhiteNoise c
  let (noiseSrcId, c) := createBufferSource c
  let c := setBuffer c noiseSrcId noiseBufId
  let c := setLoop c noiseSrcId true
  -- Set gain levels based on mix
  let toneLevel := (1 - noiseMix) * 0.3
  let noiseLevel := noiseMix * 0.3
  let c := setGainValue c leftGainId 1
  let c := setGainValue c rightGainId 1
  let c := setGainValue c toneGainId toneLevel
  let c := setGainValue c noiseGainId noiseLevel
  let c := setPanValue c panId panValue
  -- Initialize FX
  let c := setDelayTime c delayId 0.3
  let c := setGainValue c delayGainId 0
  let c := setGainValue c reverbGainId 0
  -- Connect tone path
  let c := connect c leftOscId leftGainId
  let c := connect c rightOscId rightGainId
  let c := connect c leftGainId toneGainId
  let c := connect c rightGainId toneGainId
  let c := connectCh c toneGainId mergerId 0 0
  let c := connectCh c toneGainId mergerId 0 1
  -- Connect noise path
  let c := connect c noiseSrcId noiseGainId
  let c := connectCh c noiseGainId mergerId 0 0
  let c := connectCh c noiseGainId mergerId 0 1
  -- Connect FX chain
  let c := connect c mergerId delayId
  let c := connect c delayId delayGainId
  let c := connect c delayGainId mergerId
  -- Connect panning and output
  let c := connect c mergerId panId
  let c := connect c panId a
  -- Start oscillators
  let c := nodeStart c leftOscId
  let c := nodeStart c rightOscId
  let c := nodeStart c noiseSrcId
  (c,
   { leftOsc := some leftOscId
     rightOsc := some rightOscId
     leftGain := some leftGainId
     rightGain := some rightGainId
     noiseSource := some noiseSrcId
     noiseGain := some noiseGainId
     toneGain := some toneGainId
     panNode := some panId
     merger := some mergerId
     delayNode := some delayId
     delayGain := some delayGainId
     convolverNode := some convolverId
     reverbGain := some reverbGainId })

/-- `startBinaural(baseFreq, beatFreq, noiseMix, panValue, waveform)`:
guard on context/analyser, tear down any previous session, then build and
start the new graph. -/
def startBinaural (s : EngineState) (baseFreq beatFreq noiseMix panValue : ℝ)
    (waveform : Waveform) : Except AudioErr EngineState :=
  match s.audioContext, s.analyser with
  | some _, some a =>
    (match stopBinaural s with
     | .error e => .error e
     | .ok s1 =>
       match s1.audioContext with
       | none => .ok s1
       | some c =>
         let r := buildBinaural c a baseFreq beatFreq noiseMix panValue waveform
         .ok { s1 with audioContext := some r.1, binauralNodes := r.2 })
  | _, _ => .ok s

/-- `updateBinauralFrequencies(baseFreq, beatFreq)`:
`if (leftOsc && rightOsc && audioContext)` schedule both new values at the
current audio-clock time, otherwise do nothing. -/
def updateBinauralFrequencies (s : EngineState) (baseFreq beatFreq : ℝ) :
    EngineState :=
  match s.binauralNodes.leftOsc, s.binauralNodes.rightOsc, s.audioContext with
  | some li, some ri, some c =>
    let c' := freqSetValueAtTime c li baseFreq c.currentTime
    let c' := freqSetValueAtTime c' ri (baseFreq + beatFreq) c.currentTime
    { s with audioContext := some c' }
  | _, _, _ => s

/-- `updateNoiseMix(mix)`: recompute the complementary tone/noise levels and
schedule them at the current audio-clock time; no-op without a session. -/
def updateNoiseMix (s : EngineState) (mix : ℝ) : EngineState :=
  match s.binauralNodes.noiseGain, s.binauralNodes.toneGain, s.audioContext with
  | some ng, some tg, some c =>
    let toneLevel := (1 - mix) * 0.3
    let noiseLevel := mix * 0.3
    let c' := gainSetValueAtTime c tg toneLevel c.currentTime
    let c' := gainSetValueAtTime c' ng noiseLevel c.currentTime
    { s with audioContext := some c' }
  | _, _, _ => s

/-- `updatePanning(panValue)`: no-op without a session. -/
def updatePanning (s : EngineState) (panValue : ℝ) : EngineState :=
  match s.binauralNodes.panNode, s.audioContext with
  | some p, some c =>
    { s with audioContext := some (panSetValueAtTime c p panValue c.currentTime) }
  | _, _ => s

/-- `updateWaveform(waveform)`: mutate both oscillator types in place;
no-op without a session.  (The nodes live in the context store, so the
update is threaded through it; the guard is on the two oscillators only,
as in the source.) -/
def updateWaveform (s : EngineState) (w : Waveform) : EngineState :=
  match s.binauralNodes.leftOsc, s.binauralNodes.rightOsc with
  | some li, some ri =>
    (match s.audioContext with
     | some c => { s with audioContext := some (setWave (setWave c li w) ri w) }
     | none => s)
  | _, _ => s

/-- `semitoneToFrequency(semitone, octave)`:
`261.63 * Math.pow(2, semitone / 12) * Math.pow(2, octave - 4)`. -/
def semitoneToFrequency (semitone octave : ℤ) : ℝ :=
  let baseFreq : ℝ := 261.63
  let octaveMultiplier : ℝ := (2 : ℝ) ^ (((octave : ℝ) - 4))
  baseFreq * (2 : ℝ) ^ (((semitone : ℝ) / 12)) * octaveMultiplier

/-- `try { osc.stop(); osc.disconnect() } catch (e) {}` — the per-voice
teardown of `stopChord`; a failing `stop()` is swallowed (and skips the
disconnect). -/
def tryStopAndDisconnect (c : Ctx) (i : ℕ) : Ctx :=
  match nodeStop c i with
  | .ok c' => disconnectNode c' i
  | .error _ => c

/-- `stopChord()`: tear down every chord oscillator (tolerating
already-stopped voices) and clear the list. -/
def stopChord (s : EngineState) : EngineState :=
  match s.audioContext with
  | none => { s with chordOscillators := [] }
  | some c =>
    let c' := s.chordOscillators.foldl tryStopAndDisconnect c
    { s with audioContext := some c', chordOscillators := [] }

/-- The `notes.forEach` body of `playChord`: one sine oscillator plus gain
per note, note gain `1 / notes.length`, wired into the chord gain `G`;
the oscillator id is pushed onto the voice list. -/
def chordNoteStep (notes : List ℤ) (octave : ℤ) (g : ℕ)
    (acc : Ctx × List ℕ) (semitone : ℤ) : Ctx × List ℕ :=
  let (oscId, c) := createOscillator acc.1
  let (noteGainId, c) := createGain c
  let c := setWave c oscId .sine
  let c := setFreqValue c oscId (semitoneToFrequency semitone octave)
  let c := setGainValue c noteGainId (1 / (notes.length : ℝ))
  let c := connect c oscId noteGainId
  let c := connect c noteGainId g
  let c := nodeStart c oscId
  (c, acc.2 ++ [oscId])

/-- `playChord(notes, octave, volume)`: guard on context/analyser, release
any held chord, create the chord-level gain at `volume * 0.2` connected to
the analyser, then one oscillator/gain pair per note. -/
def playChord (s : EngineState) (notes : List ℤ) (octave : ℤ) (volume : ℝ) :
    EngineState :=
  match s.audioContext, s.analyser with
  | some _, some a =>
    let s := stopChord s
    (match s.audioContext with
     | none => s
     | some c =>
       let (chordGainId, c) := createGain c
       let c := setGainValue c chordGainId (volume * 0.2)
       let c := connect c chordGainId a
       let r := notes.foldl (chordNoteStep notes octave chordGainId)
         (c, s.chordOscillators)
       { s with audioContext := some r.1, chordOscillators := r.2 })
  | _, _ => s

/-- The playback block of `playDrumSound` once the buffer `b` is found:
a fresh one-shot source into a 0.5 gain into the analyser `a`. -/
def playDrumBody (c : Ctx) (a b : ℕ) : Ctx :=
  let (sourceId, c) := createBufferSource c
  let (gainId, c) := createGain c
  let c := setBuffer c sourceId b
  let c := setGainValue c gainId 0.5
  let c := connect c sourceId gainId
  let c := connect c gainId a
  let c := nodeStart c sourceId
  c

/-- `playDrumSound(drumType)`: guard on context/analyser, look the type up in
the drum-buffer map (no-op when absent), then play the buffer through a fresh
one-shot source into a 0.5 gain into the analyser. -/
def playDrumSound (s : EngineState) (drumType : String) : EngineState :=
  match s.audioContext, s.analyser with
  | some c, some a =>
    (match mapGet s.drumBuffers drumType with
     | none => s
     | some b => { s with audioContext := some (playDrumBody c a b) })
  | _, _ => s

/-- A node is a generative source (oscillator or buffer source). -/
def Node.isSource (n : Node) : Prop :=
  n.kind = .oscillator ∨ n.kind = .bufferSource

/-- A source that has been started, not stopped, and still has an outgoing
connection: it is audible in the graph. -/
def Node.isLive (n : Node) : Prop :=
  n.isSource ∧ n.started = true ∧ n.stoppedFlag = false ∧ n.conns ≠ []

/-- Node id `i` holds a live (started and connected) source in context `c`. -/
def liveAt (c : Ctx) (i : ℕ) : Prop :=
  ∃ n, c.node i = some n ∧ n.isLive

/-- Node id `i` holds a source on which `stop()` would succeed. -/
def SourceOk (c : Ctx) (i : ℕ) : Prop :=
  ∃ n, c.node i = some n ∧ n.started = true ∧ n.stoppedFlag = false

/-- The handle produced by a graph build whose first fresh node id was `L`
(creation order: merger, leftOsc, rightOsc, leftGain, rightGain, toneGain,
noiseGain, panNode, delayNode, delayGain, convolverNode, reverbGain,
noiseSource). -/
def handleAt (L : ℕ) : BinauralHandle :=
  { merger := some L
    leftOsc := some (L + 1)
    rightOsc := some (L + 2)
    leftGain := some (L + 3)
    rightGain := some (L + 4)
    toneGain := some (L + 5)
    noiseGain := some (L + 6)
    panNode := some (L + 7)
    delayNode := some (L + 8)
    delayGain := some (L + 9)
    convolverNode := some (L + 10)
    reverbGain := some (L + 11)
    noiseSource := some (L + 12) }

/-- The thirteen ids allocated by one graph build starting at `L`. -/
def inBlock (L j : ℕ) : Prop := L ≤ j ∧ j < L + 13

/-- Every id at or above the allocation counter is unused. -/
def CtxBound (c : Ctx) : Prop := ∀ j, c.nextId ≤ j → c.node j = none

/-- Handle invariant: either the handle is all-null and no live source
exists, or it is exactly the handle of the most recent graph build and the
live sources are exactly its two oscillators and its noise source. -/
def InvHandle (c : Ctx) (h : BinauralHandle) : Prop :=
  (h = emptyHandle ∧ ∀ i, ¬ liveAt c i) ∨
  (∃ L, h = handleAt L ∧ c.nextId = L + 13 ∧
    SourceOk c (L + 1) ∧ SourceOk c (L + 2) ∧ SourceOk c (L + 12) ∧
    (∀ i, liveAt c i ↔ (i = L + 1 ∨ i = L + 2 ∨ i = L + 12)))

/-- Well-formedness of the hook state once the init effect has run. -/
def EngineInv (s : EngineState) : Prop :=
  ∃ c, s.audioContext = some c ∧ (∃ a, s.analyser = some a) ∧
    CtxBound c ∧ InvHandle c s.binauralNodes

/-- One argument tuple for `startBinaural`. -/
structure StartParams where
  baseFreq : ℝ
  beatFreq : ℝ
  noiseMix : ℝ
  panValue : ℝ
  wave : Waveform

/-- A sequence of consecutive `startBinaural` calls. -/
def iterStarts (s : EngineState) (ps : List StartParams) :
    Except AudioErr EngineState :=
  ps.foldlM
    (fun s p => startBinaural s p.baseFreq p.beatFreq p.noiseMix p.panValue p.wave)
    s

/-! ### Straight-line graph-program gadget

The graph-construction blocks of the source are straight-line sequences of
node allocations, node mutations and buffer allocations.  To reason about
them uniformly they are re-expressed as explicit op lists interpreted by
`runOps`; a definitional-equality theorem ties each block to its op list. -/

/-- One step of a straight-line graph-construction block. -/
inductive GOp where
  | gadd (n : Node)
  | gmodify (i : ℕ) (f : Node → Node)
  | gbuf (info : BufferInfo)

/-- Interpret one step. -/
def runOp (c : Ctx) (op : GOp) : Ctx :=
  match op with
  | .gadd n => (addNode c n).2
  | .gmodify i f => modifyNode c i f
  | .gbuf info => { c with buffers := c.buffers ++ [info] }

/-- Interpret a straight-line block. -/
def runOps (c : Ctx) (ops : List GOp) : Ctx := ops.foldl runOp c

/-- Number of node allocations in a block. -/
def countAdds (ops : List GOp) : ℕ :=
  ops.countP (fun op => match op with | .gadd _ => true | _ => false)

/-- Buffers allocated by a block. -/
def gbufs (ops : List GOp) : List BufferInfo :=
  ops.filterMap (fun op => match op with | .gbuf info => some info | _ => none)

/-- The op list of the graph-construction block of `startBinaural`, for entry
allocation counter `L`, entry buffer count `B` and sample rate `sr`. -/
def buildOps (L B : ℕ) (sr : ℕ) (a : ℕ) (b β m p : ℝ) (w : Waveform) :
    List GOp :=
  [ .gadd { baseNode .channelMerger with mergerInputs := 2 }
  , .gadd (baseNode .oscillator)
  , .gadd (baseNode .oscillator)
  , .gadd (baseNode .gainNode)
  , .gadd (baseNode .gainNode)
  , .gadd (baseNode .gainNode)
  , .gadd (baseNode .gainNode)
  , .gadd (baseNode .stereoPanner)
  , .gadd { baseNode .delayNode with maxDelayTime := 1.0 }
  , .gadd (baseNode .gainNode)
  , .gadd (baseNode .convolver)
  , .gadd (baseNode .gainNode)
  , .gmodify (L + 1) (fun n => { n with wave := w })
  , .gmodify (L + 2) (fun n => { n with wave := w })
  , .gmodify (L + 1) (fun n => { n with freq := b })
  , .gmodify (L + 2) (fun n => { n with freq := b + β })
  , .gbuf ⟨2, (sr : ℝ) * 2, sr⟩
  , .gadd (baseNode .bufferSource)
  , .gmodify (L + 12) (fun n => { n with buffer := some B })
  , .gmodify (L + 12) (fun n => { n with loop := true })
  , .gmodify (L + 3) (fun n => { n with gain := 1 })
  , .gmodify (L + 4) (fun n => { n with gain := 1 })
  , .gmodify (L + 5) (fun n => { n with gain := (1 - m) * 0.3 })
  , .gmodify (L + 6) (fun n => { n with gain := m * 0.3 })
  , .gmodify (L + 7) (fun n => { n with pan := p })
  , .gmodify (L + 8) (fun n => { n with delayTime := 0.3 })
  , .gmodify (L + 9) (fun n => { n with gain := 0 })
  , .gmodify (L + 11) (fun n => { n with gain := 0 })
  , .gmodify (L + 1) (fun n => { n with conns := n.conns ++ [⟨L + 3, 0, 0⟩] })
  , .gmodify (L + 2) (fun n => { n with conns := n.conns ++ [⟨L + 4, 0, 0⟩] })
  , .gmodify (L + 3) (fun n => { n with conns := n.conns ++ [⟨L + 5, 0, 0⟩] })
  , .gmodify (L + 4) (fun n => { n with conns := n.conns ++ [⟨L + 5, 0, 0⟩] })
  , .gmodify (L + 5) (fun n => { n with conns := n.conns ++ [⟨L, 0, 0⟩] })
  , .gmodify (L + 5) (fun n => { n with conns := n.conns ++ [⟨L, 0, 1⟩] })
  , .gmodify (L + 12) (fun n => { n with conns := n.conns ++ [⟨L + 6, 0, 0⟩] })
  , .gmodify (L + 6) (fun n => { n with conns := n.conns ++ [⟨L, 0, 0⟩] })
  , .gmodify (L + 6) (fun n => { n with conns := n.conns ++ [⟨L, 0, 1⟩] })
  , .gmodify L (fun n => { n with conns := n.conns ++ [⟨L + 8, 0, 0⟩] })
  , .gmodify (L + 8) (fun n => { n with conns := n.conns ++ [⟨L + 9, 0, 0⟩] })
  , .gmodify (L + 9) (fun n => { n with conns := n.conns ++ [⟨L, 0, 0⟩] })
  , .gmodify L (fun n => { n with conns := n.conns ++ [⟨L + 7, 0, 0⟩] })
  , .gmodify (L + 7) (fun n => { n with conns := n.conns ++ [⟨a, 0, 0⟩] })
  , .gmodify (L + 1) (fun n => { n with started := true })
  , .gmodify (L + 2) (fun n => { n with started := true })
  , .gmodify (L + 12) (fun n => { n with started := true }) ]

/-- The op list of the per-note block of `playChord` (entry counter `L`,
note count `N`, chord gain `g`). -/
def chordOps (L : ℕ) (N : ℕ) (octave : ℤ) (g : ℕ) (semitone : ℤ) :
    List GOp :=
  [ .gadd (baseNode .oscillator)
  , .gadd (baseNode .gainNode)
  , .gmodify L (fun n => { n with wave := Waveform.sine })
  , .gmodify L (fun n => { n with freq := semitoneToFrequency semitone octave })
  , .gmodify (L + 1) (fun n => { n with gain := 1 / (N : ℝ) })
  , .gmodify L (fun n => { n with conns := n.conns ++ [⟨L + 1, 0, 0⟩] })
  , .gmodify (L + 1) (fun n => { n with conns := n.conns ++ [⟨g, 0, 0⟩] })
  , .gmodify L (fun n => { n with started := true }) ]

/-- The op list of the playback block of `playDrumSound` (entry counter `L`,
buffer id `b`, analyser `a`). -/
def drumOps (L : ℕ) (b : ℕ) (a : ℕ) : List GOp :=
  [ .gadd (baseNode .bufferSource)
  , .gadd (baseNode .gainNode)
  , .gmodify L (fun n => { n with buffer := some b })
  , .gmodify (L + 1) (fun n => { n with gain := 0.5 })
  , .gmodify L (fun n => { n with conns := n.conns ++ [⟨L + 1, 0, 0⟩] })
  , .gmodify (L + 1) (fun n => { n with conns := n.conns ++ [⟨a, 0, 0⟩] })
  , .gmodify L (fun n => { n with started := true }) ]

end

noncomputable section

/-- Bounds on the ids mutated by a block. -/
def OpsBounded (lo hi : ℕ) : List GOp → Prop
  | [] => True
  | (GOp.gmodify i _) :: rest => lo ≤ i ∧ i < hi ∧ OpsBounded lo hi rest
  | _ :: rest => OpsBounded lo hi rest

/-- A small concrete context holding the nodes of a running binaural session
whose handle is `handleAt 2`: oscillators at ids 3 and 4, tone gain at 7,
noise gain at 8, panner at 9.  Used to exercise the live-update operations
on concrete inputs. -/
def demoCtx : Ctx :=
  { sampleRate := 44100
    currentTime := 0
    nextId := 15
    node := fun j =>
      if j = 3 then some { baseNode .oscillator with started := true }
      else if j = 4 then some { baseNode .oscillator with started := true }
      else if j = 7 then some (baseNode .gainNode)
      else if j = 8 then some (baseNode .gainNode)
      else if j = 9 then some (baseNode .stereoPanner)
      else none
    buffers := [] }

/-- A concrete engine state with an active binaural session over `demoCtx`. -/
def demoEngine : EngineState :=
  { audioContext := some demoCtx
    analyser := some 1
    binauralNodes := handleAt 2
    drumBuffers := []
    chordOscillators := [] }

end

noncomputable section

/-! ### Primitive-operation lemmas -/

theorem setNodeAt_node_self (c : Ctx) (i : ℕ) (n : Node) :
    (setNodeAt c i n).node i = some n := by
  simp [setNodeAt, updFn]

theorem setNodeAt_node_ne (c : Ctx) (i : ℕ) (n : Node) (j : ℕ) (h : j ≠ i) :
    (setNodeAt c i n).node j = c.node j := by
  simp [setNodeAt, updFn, h]

theorem setNodeAt_misc (c : Ctx) (i : ℕ) (n : Node) :
    (setNodeAt c i n).nextId = c.nextId ∧
    (setNodeAt c i n).sampleRate = c.sampleRate ∧
    (setNodeAt c i n).currentTime = c.currentTime ∧
    (setNodeAt c i n).buffers = c.buffers := by
  simp [setNodeAt]

theorem modifyNode_node_self (c : Ctx) (i : ℕ) (f : Node → Node) :
    (modifyNode c i f).node i = (c.node i).map f := by
  cases hc : c.node i <;> simp [modifyNode, hc, setNodeAt, updFn]

theorem modifyNode_node_ne (c : Ctx) (i : ℕ) (f : Node → Node) (j : ℕ)
    (h : j ≠ i) : (modifyNode c i f).node j = c.node j := by
  cases hc : c.node i <;> simp [modifyNode, hc, setNodeAt, updFn, h]

theorem modifyNode_misc (c : Ctx) (i : ℕ) (f : Node → Node) :
    (modifyNode c i f).nextId = c.nextId ∧
    (modifyNode c i f).sampleRate = c.sampleRate ∧
    (modifyNode c i f).currentTime = c.currentTime ∧
    (modifyNode c i f).buffers = c.buffers := by
  cases hc : c.node i <;> simp [modifyNode, hc, setNodeAt]

theorem addNode_fst (c : Ctx) (n : Node) : (addNode c n).1 = c.nextId := rfl

theorem addNode_nextId (c : Ctx) (n : Node) :
    (addNode c n).2.nextId = c.nextId + 1 := rfl

theorem addNode_node_ne (c : Ctx) (n : Node) (j : ℕ) (h : j ≠ c.nextId) :
    (addNode c n).2.node j = c.node j := by
  simp [addNode, updFn, h]

theorem addNode_node_self (c : Ctx) (n : Node) :
    (addNode c n).2.node c.nextId = some n := by
  simp [addNode, updFn]

theorem nodeStop_sourceOk (c : Ctx) (i : ℕ) (h : SourceOk c i) :
    ∃ n, c.node i = some n ∧ n.started = true ∧ n.stoppedFlag = false ∧
      nodeStop c i = .ok (setNodeAt c i { n with stoppedFlag := true }) := by
  obtain ⟨n, hn, hs, hf⟩ := h
  exact ⟨n, hn, hs, hf, by simp [nodeStop, hn, hs, hf]⟩

theorem stopAndDisconnect_sourceOk (c : Ctx) (i : ℕ) (h : SourceOk c i) :
    ∃ c2, stopAndDisconnect c (some i) = .ok c2 ∧
      c2.nextId = c.nextId ∧ c2.sampleRate = c.sampleRate ∧
      c2.currentTime = c.currentTime ∧ c2.buffers = c.buffers ∧
      (∀ j, j ≠ i → c2.node j = c.node j) ∧
      c2.node i =
        (c.node i).map (fun n => { n with stoppedFlag := true, conns := [] }) := by
  obtain ⟨n, hn, hs, hf, hstop⟩ := nodeStop_sourceOk c i h
  refine ⟨disconnectNode (setNodeAt c i { n with stoppedFlag := true }) i,
    by simp [stopAndDisconnect, hstop], ?_, ?_, ?_, ?_, ?_, ?_⟩
  · simp [disconnectNode, (modifyNode_misc _ _ _).1, (setNodeAt_misc _ _ _).1]
  · simp [disconnectNode, (modifyNode_misc _ _ _).2.1, (setNodeAt_misc _ _ _).2.1]
  · simp [disconnectNode, (modifyNode_misc _ _ _).2.2.1,
      (setNodeAt_misc _ _ _).2.2.1]
  · simp [disconnectNode, (modifyNode_misc _ _ _).2.2.2,
      (setNodeAt_misc _ _ _).2.2.2]
  · intro j hj
    rw [disconnectNode, modifyNode_node_ne _ _ _ _ hj, setNodeAt_node_ne _ _ _ _ hj]
  · rw [disconnectNode, modifyNode_node_self, setNodeAt_node_self, hn]
    rfl

theorem disconnectOpt_some (c : Ctx) (i : ℕ) :
    disconnectOpt c (some i) = disconnectNode c i := rfl

/-! ### Lemmas about straight-line blocks -/

theorem runOps_cons (c : Ctx) (op : GOp) (rest : List GOp) :
    runOps c (op :: rest) = runOps (runOp c op) rest := rfl

theorem runOps_nextId (ops : List GOp) : ∀ c : Ctx,
    (runOps c ops).nextId = c.nextId + countAdds ops := by
  induction ops with
  | nil => intro c; simp [runOps, countAdds]
  | cons op rest ih =>
    intro c
    rw [runOps_cons, ih]
    cases op with
    | gadd n =>
      simp only [countAdds, List.countP_cons]
      rw [show (runOp c (GOp.gadd n)).nextId = c.nextId + 1 from rfl]
      simp [countAdds]
      omega
    | gmodify i f =>
      simp only [countAdds, List.countP_cons]
      rw [show (runOp c (GOp.gmodify i f)).nextId = c.nextId from
        (modifyNode_misc _ _ _).1]
      simp [countAdds]
    | gbuf info =>
      simp only [countAdds, List.countP_cons]
      rw [show (runOp c (GOp.gbuf info)).nextId = c.nextId from rfl]
      simp [countAdds]

theorem runOps_misc (ops : List GOp) : ∀ c : Ctx,
    (runOps c ops).sampleRate = c.sampleRate ∧
    (runOps c ops).currentTime = c.currentTime ∧
    (runOps c ops).buffers = c.buffers ++ gbufs ops := by
  induction ops with
  | nil => intro c; simp [runOps, gbufs]
  | cons op rest ih =>
    intro c
    rw [runOps_cons]
    obtain ⟨h1, h2, h3⟩ := ih (runOp c op)
    refine ⟨?_, ?_, ?_⟩
    · rw [h1]; cases op with
      | gadd n => rfl
      | gmodify i f => exact (modifyNode_misc _ _ _).2.1
      | gbuf info => rfl
    · rw [h2]; cases op with
      | gadd n => rfl
      | gmodify i f => exact (modifyNode_misc _ _ _).2.2.1
      | gbuf info => rfl
    · rw [h3]; cases op with
      | gadd n => simp [runOp, addNode, gbufs]
      | gmodify i f =>
        have hbuf : (runOp c (GOp.gmodify i f)).buffers = c.buffers :=
          (modifyNode_misc _ _ _).2.2.2
        rw [hbuf]; simp [gbufs]
      | gbuf info => simp [runOp, gbufs]

theorem runOps_node_low (ops : List GOp) : ∀ (c : Ctx) (L j H : ℕ),
    OpsBounded L H ops → L ≤ c.nextId → j < L →
    (runOps c ops).node j = c.node j := by
  induction ops with
  | nil => intro c L j H _ _ _; rfl
  | cons op rest ih =>
    intro c L j H hb hL hj
    rw [runOps_cons]
    cases op with
    | gadd n =>
      have hnext : (runOp c (GOp.gadd n)).nextId = c.nextId + 1 := rfl
      rw [ih _ L j H hb (by omega) hj]
      exact addNode_node_ne _ _ _ (by omega)
    | gmodify i f =>
      obtain ⟨hi1, hi2, hrest⟩ := hb
      have hnext : (runOp c (GOp.gmodify i f)).nextId = c.nextId :=
        (modifyNode_misc _ _ _).1
      rw [ih _ L j H hrest (by omega) hj]
      exact modifyNode_node_ne _ _ _ _ (by omega)
    | gbuf info =>
      have hnext : (runOp c (GOp.gbuf info)).nextId = c.nextId := rfl
      rw [ih _ L j H hb (by omega) hj]
      rfl

theorem runOps_node_high (ops : List GOp) : ∀ (c : Ctx) (L j H : ℕ),
    OpsBounded L H ops → c.nextId + countAdds ops ≤ H → H ≤ j →
    (runOps c ops).node j = c.node j := by
  induction ops with
  | nil => intro c L j H _ _ _; rfl
  | cons op rest ih =>
    intro c L j H hb hH hj
    rw [runOps_cons]
    have hcount : countAdds (op :: rest) =
        countAdds rest + (if (match op with | GOp.gadd _ => true | _ => false)
          then 1 else 0) := List.countP_cons _ _ _
    cases op with
    | gadd n =>
      simp at hcount
      have hnext : (runOp c (GOp.gadd n)).nextId = c.nextId + 1 := rfl
      rw [ih _ L j H hb (by omega) hj]
      exact addNode_node_ne _ _ _ (by omega)
    | gmodify i f =>
      obtain ⟨hi1, hi2, hrest⟩ := hb
      simp at hcount
      have hnext : (runOp c (GOp.gmodify i f)).nextId = c.nextId :=
        (modifyNode_misc _ _ _).1
      rw [ih _ L j H hrest (by omega) hj]
      exact modifyNode_node_ne _ _ _ _ (by omega)
    | gbuf info =>
      simp at hcount
      have hnext : (runOp c (GOp.gbuf info)).nextId = c.nextId := rfl
      rw [ih _ L j H hb (by omega) hj]
      rfl

end

noncomputable section

/-! ### The graph build as a straight-line block -/

theorem buildBinaural_fst (c : Ctx) (a : ℕ) (b β m p : ℝ) (w : Waveform) :
    (buildBinaural c a b β m p w).1 =
      runOps c (buildOps c.nextId c.buffers.length c.sampleRate a b β m p w) := by
  simp [buildBinaural, buildOps, runOps, runOp, createChannelMerger,
    createOscillator, createGain, createStereoPanner, createDelay,
    createConvolver, createBufferSource, createWhiteNoise, createBuffer,
    addNode, setWave, setFreqValue, setGainValue, setPanValue, setDelayTime,
    setBuffer, setLoop, connect, connectCh, nodeStart, modifyNode, setNodeAt,
    updFn, baseNode, Nat.add_assoc]

theorem buildBinaural_snd (c : Ctx) (a : ℕ) (b β m p : ℝ) (w : Waveform) :
    (buildBinaural c a b β m p w).2 = handleAt c.nextId := by
  simp [buildBinaural, handleAt, createChannelMerger,
    createOscillator, createGain, createStereoPanner, createDelay,
    createConvolver, createBufferSource, createWhiteNoise, createBuffer,
    addNode, setWave, setFreqValue, setGainValue, setPanValue, setDelayTime,
    setBuffer, setLoop, connect, connectCh, nodeStart, modifyNode, setNodeAt,
    updFn, baseNode, Nat.add_assoc]

theorem buildOps_bounded (L B sr a : ℕ) (b β m p : ℝ) (w : Waveform) :
    OpsBounded L (L + 13) (buildOps L B sr a b β m p w) := by
  simp [buildOps, OpsBounded]

theorem buildOps_countAdds (L B sr a : ℕ) (b β m p : ℝ) (w : Waveform) :
    countAdds (buildOps L B sr a b β m p w) = 13 := rfl

theorem buildOps_gbufs (L B sr a : ℕ) (b β m p : ℝ) (w : Waveform) :
    gbufs (buildOps L B sr a b β m p w) = [⟨2, (sr : ℝ) * 2, sr⟩] := rfl

theorem bb_old (c : Ctx) (a : ℕ) (b β m p : ℝ) (w : Waveform) (j : ℕ)
    (hj : ¬ inBlock c.nextId j) :
    (buildBinaural c a b β m p w).1.node j = c.node j := by
  rw [buildBinaural_fst]
  simp only [inBlock, not_and, not_lt] at hj
  by_cases hlow : j < c.nextId
  · exact runOps_node_low _ _ _ _ _ (buildOps_bounded _ _ _ _ _ _ _ _ _)
      le_rfl hlow
  · exact runOps_node_high _ _ _ _ _ (buildOps_bounded _ _ _ _ _ _ _ _ _)
      (by rw [buildOps_countAdds]) (hj (by omega))

theorem bb_nextId (c : Ctx) (a : ℕ) (b β m p : ℝ) (w : Waveform) :
    (buildBinaural c a b β m p w).1.nextId = c.nextId + 13 := by
  rw [buildBinaural_fst, runOps_nextId, buildOps_countAdds]

theorem bb_misc (c : Ctx) (a : ℕ) (b β m p : ℝ) (w : Waveform) :
    (buildBinaural c a b β m p w).1.sampleRate = c.sampleRate ∧
    (buildBinaural c a b β m p w).1.currentTime = c.currentTime ∧
    (buildBinaural c a b β m p w).1.buffers =
      c.buffers ++ [⟨2, (c.sampleRate : ℝ) * 2, c.sampleRate⟩] := by
  rw [buildBinaural_fst]
  obtain ⟨h1, h2, h3⟩ := runOps_misc
    (buildOps c.nextId c.buffers.length c.sampleRate a b β m p w) c
  exact ⟨h1, h2, by rw [h3, buildOps_gbufs]⟩

end

noncomputable section

/-! ### The node records created by the graph build -/

theorem bb_node_merger (c : Ctx) (a : ℕ) (b β m p : ℝ) (w : Waveform) :
    (buildBinaural c a b β m p w).1.node c.nextId =
      some { baseNode .channelMerger with
              mergerInputs := 2,
              conns := [⟨c.nextId + 8, 0, 0⟩, ⟨c.nextId + 7, 0, 0⟩] } := by
  simp [buildBinaural, createChannelMerger, createOscillator, createGain,
    createStereoPanner, createDelay, createConvolver, createBufferSource,
    createWhiteNoise, createBuffer, addNode, setWave, setFreqValue,
    setGainValue, setPanValue, setDelayTime, setBuffer, setLoop,
    connect, connectCh, nodeStart, modifyNode, setNodeAt, updFn, baseNode,
    Nat.add_assoc]

theorem bb_node_leftOsc (c : Ctx) (a : ℕ) (b β m p : ℝ) (w : Waveform) :
    (buildBinaural c a b β m p w).1.node (c.nextId + 1) =
      some { baseNode .oscillator with
              wave := w, freq := b, started := true,
              conns := [⟨c.nextId + 3, 0, 0⟩] } := by
  simp [buildBinaural, createChannelMerger, createOscillator, createGain,
    createStereoPanner, createDelay, createConvolver, createBufferSource,
    createWhiteNoise, createBuffer, addNode, setWave, setFreqValue,
    setGainValue, setPanValue, setDelayTime, setBuffer, setLoop,
    connect, connectCh, nodeStart, modifyNode, setNodeAt, updFn, baseNode,
    Nat.add_assoc]

theorem bb_node_rightOsc (c : Ctx) (a : ℕ) (b β m p : ℝ) (w : Waveform) :
    (buildBinaural c a b β m p w).1.node (c.nextId + 2) =
      some { baseNode .oscillator with
              wave := w, freq := b + β, started := true,
              conns := [⟨c.nextId + 4, 0, 0⟩] } := by
  simp [buildBinaural, createChannelMerger, createOscillator, createGain,
    createStereoPanner, createDelay, createConvolver, createBufferSource,
    createWhiteNoise, createBuffer, addNode, setWave, setFreqValue,
    setGainValue, setPanValue, setDelayTime, setBuffer, setLoop,
    connect, connectCh, nodeStart, modifyNode, setNodeAt, updFn, baseNode,
    Nat.add_assoc]

theorem bb_node_leftGain (c : Ctx) (a : ℕ) (b β m p : ℝ) (w : Waveform) :
    (buildBinaural c a b β m p w).1.node (c.nextId + 3) =
      some { baseNode .gainNode with
              gain := 1, conns := [⟨c.nextId + 5, 0, 0⟩] } := by
  simp [buildBinaural, createChannelMerger, createOscillator, createGain,
    createStereoPanner, createDelay, createConvolver, createBufferSource,
    createWhiteNoise, createBuffer, addNode, setWave, setFreqValue,
    setGainValue, setPanValue, setDelayTime, setBuffer, setLoop,
    connect, connectCh, nodeStart, modifyNode, setNodeAt, updFn, baseNode,
    Nat.add_assoc]

theorem bb_node_rightGain (c : Ctx) (a : ℕ) (b β m p : ℝ) (w : Waveform) :
    (buildBinaural c a b β m p w).1.node (c.nextId + 4) =
      some { baseNode .gainNode with
              gain := 1, conns := [⟨c.nextId + 5, 0, 0⟩] } := by
  simp [buildBinaural, createChannelMerger, createOscillator, createGain,
    createStereoPanner, createDelay, createConvolver, createBufferSource,
    createWhiteNoise, createBuffer, addNode, setWave, setFreqValue,
    setGainValue, setPanValue, setDelayTime, setBuffer, setLoop,
    connect, connectCh, nodeStart, modifyNode, setNodeAt, updFn, baseNode,
    Nat.add_assoc]

theorem bb_node_toneGain (c : Ctx) (a : ℕ) (b β m p : ℝ) (w : Waveform) :
    (buildBinaural c a b β m p w).1.node (c.nextId + 5) =
      some { baseNode .gainNode with
              gain := (1 - m) * 0.3,
              conns := [⟨c.nextId, 0, 0⟩, ⟨c.nextId, 0, 1⟩] } := by
  simp [buildBinaural, createChannelMerger, createOscillator, createGain,
    createStereoPanner, createDelay, createConvolver, createBufferSource,
    createWhiteNoise, createBuffer, addNode, setWave, setFreqValue,
    setGainValue, setPanValue, setDelayTime, setBuffer, setLoop,
    connect, connectCh, nodeStart, modifyNode, setNodeAt, updFn, baseNode,
    Nat.add_assoc]

theorem bb_node_noiseGain (c : Ctx) (a : ℕ) (b β m p : ℝ) (w : Waveform) :
    (buildBinaural c a b β m p w).1.node (c.nextId + 6) =
      some { baseNode .gainNode with
              gain := m * 0.3,
              conns := [⟨c.nextId, 0, 0⟩, ⟨c.nextId, 0, 1⟩] } := by
  simp [buildBinaural, createChannelMerger, createOscillator, createGain,
    createStereoPanner, createDelay, createConvolver, createBufferSource,
    createWhiteNoise, createBuffer, addNode, setWave, setFreqValue,
    setGainValue, setPanValue, setDelayTime, setBuffer, setLoop,
    connect, connectCh, nodeStart, modifyNode, setNodeAt, updFn, baseNode,
    Nat.add_assoc]

theorem bb_node_pan (c : Ctx) (a : ℕ) (b β m p : ℝ) (w : Waveform) :
    (buildBinaural c a b β m p w).1.node (c.nextId + 7) =
      some { baseNode .stereoPanner with
              pan := p, conns := [⟨a, 0, 0⟩] } := by
  simp [buildBinaural, createChannelMerger, createOscillator, createGain,
    createStereoPanner, createDelay, createConvolver, createBufferSource,
    createWhiteNoise, createBuffer, addNode, setWave, setFreqValue,
    setGainValue, setPanValue, setDelayTime, setBuffer, setLoop,
    connect, connectCh, nodeStart, modifyNode, setNodeAt, updFn, baseNode,
    Nat.add_assoc]

theorem bb_node_delay (c : Ctx) (a : ℕ) (b β m p : ℝ) (w : Waveform) :
    (buildBinaural c a b β m p w).1.node (c.nextId + 8) =
      some { baseNode .delayNode with
              maxDelayTime := 1.0, delayTime := 0.3,
              conns := [⟨c.nextId + 9, 0, 0⟩] } := by
  simp [buildBinaural, createChannelMerger, createOscillator, createGain,
    createStereoPanner, createDelay, createConvolver, createBufferSource,
    createWhiteNoise, createBuffer, addNode, setWave, setFreqValue,
    setGainValue, setPanValue, setDelayTime, setBuffer, setLoop,
    connect, connectCh, nodeStart, modifyNode, setNodeAt, updFn, baseNode,
    Nat.add_assoc]

theorem bb_node_delayGain (c : Ctx) (a : ℕ) (b β m p : ℝ) (w : Waveform) :
    (buildBinaural c a b β m p w).1.node (c.nextId + 9) =
      some { baseNode .gainNode with
              gain := 0, conns := [⟨c.nextId, 0, 0⟩] } := by
  simp [buildBinaural, createChannelMerger, createOscillator, createGain,
    createStereoPanner, createDelay, createConvolver, createBufferSource,
    createWhiteNoise, createBuffer, addNode, setWave, setFreqValue,
    setGainValue, setPanValue, setDelayTime, setBuffer, setLoop,
    connect, connectCh, nodeStart, modifyNode, setNodeAt, updFn, baseNode,
    Nat.add_assoc]

theorem bb_node_convolver (c : Ctx) (a : ℕ) (b β m p : ℝ) (w : Waveform) :
    (buildBinaural c a b β m p w).1.node (c.nextId + 10) =
      some (baseNode .convolver) := by
  simp [buildBinaural, createChannelMerger, createOscillator, createGain,
    createStereoPanner, createDelay, createConvolver, createBufferSource,
    createWhiteNoise, createBuffer, addNode, setWave, setFreqValue,
    setGainValue, setPanValue, setDelayTime, setBuffer, setLoop,
    connect, connectCh, nodeStart, modifyNode, setNodeAt, updFn, baseNode,
    Nat.add_assoc]

theorem bb_node_reverbGain (c : Ctx) (a : ℕ) (b β m p : ℝ) (w : Waveform) :
    (buildBinaural c a b β m p w).1.node (c.nextId + 11) =
      some { baseNode .gainNode with gain := 0 } := by
  simp [buildBinaural, createChannelMerger, createOscillator, createGain,
    createStereoPanner, createDelay, createConvolver, createBufferSource,
    createWhiteNoise, createBuffer, addNode, setWave, setFreqValue,
    setGainValue, setPanValue, setDelayTime, setBuffer, setLoop,
    connect, connectCh, nodeStart, modifyNode, setNodeAt, updFn, baseNode,
    Nat.add_assoc]

theorem bb_node_noiseSource (c : Ctx) (a : ℕ) (b β m p : ℝ) (w : Waveform) :
    (buildBinaural c a b β m p w).1.node (c.nextId + 12) =
      some { baseNode .bufferSource with
              buffer := some c.buffers.length, loop := true, started := true,
              conns := [⟨c.nextId + 6, 0, 0⟩] } := by
  simp [buildBinaural, createChannelMerger, createOscillator, createGain,
    createStereoPanner, createDelay, createConvolver, createBufferSource,
    createWhiteNoise, createBuffer, addNode, setWave, setFreqValue,
    setGainValue, setPanValue, setDelayTime, setBuffer, setLoop,
    connect, connectCh, nodeStart, modifyNode, setNodeAt, updFn, baseNode,
    Nat.add_assoc]

end

noncomputable section

/-! ### Liveness after a graph build -/

theorem bb_live (c : Ctx) (a : ℕ) (b β m p : ℝ) (w : Waveform)
    (hNo : ∀ i, ¬ liveAt c i) (i : ℕ) :
    liveAt (buildBinaural c a b β m p w).1 i ↔
      (i = c.nextId + 1 ∨ i = c.nextId + 2 ∨ i = c.nextId + 12) := by
  by_cases hib : inBlock c.nextId i
  · have hcases : i = c.nextId ∨ i = c.nextId + 1 ∨ i = c.nextId + 2 ∨
        i = c.nextId + 3 ∨ i = c.nextId + 4 ∨ i = c.nextId + 5 ∨
        i = c.nextId + 6 ∨ i = c.nextId + 7 ∨ i = c.nextId + 8 ∨
        i = c.nextId + 9 ∨ i = c.nextId + 10 ∨ i = c.nextId + 11 ∨
        i = c.nextId + 12 := by
      simp only [inBlock] at hib; omega
    rcases hcases with rfl | rfl | rfl | rfl | rfl | rfl | rfl | rfl | rfl |
      rfl | rfl | rfl | rfl
    · simp [liveAt, Node.isLive, Node.isSource, bb_node_merger, baseNode]
    · simp [liveAt, Node.isLive, Node.isSource, bb_node_leftOsc, baseNode]
    · simp [liveAt, Node.isLive, Node.isSource, bb_node_rightOsc, baseNode]
    · simp [liveAt, Node.isLive, Node.isSource, bb_node_leftGain, baseNode]
    · simp [liveAt, Node.isLive, Node.isSource, bb_node_rightGain, baseNode]
    · simp [liveAt, Node.isLive, Node.isSource, bb_node_toneGain, baseNode]
    · simp [liveAt, Node.isLive, Node.isSource, bb_node_noiseGain, baseNode]
    · simp [liveAt, Node.isLive, Node.isSource, bb_node_pan, baseNode]
    · simp [liveAt, Node.isLive, Node.isSource, bb_node_delay, baseNode]
    · simp [liveAt, Node.isLive, Node.isSource, bb_node_delayGain, baseNode]
    · simp [liveAt, Node.isLive, Node.isSource, bb_node_convolver, baseNode]
    · simp [liveAt, Node.isLive, Node.isSource, bb_node_reverbGain, baseNode]
    · simp [liveAt, Node.isLive, Node.isSource, bb_node_noiseSource, baseNode]
  · have hpres : (buildBinaural c a b β m p w).1.node i = c.node i :=
      bb_old c a b β m p w i hib
    have hlhs : ¬ liveAt (buildBinaural c a b β m p w).1 i := by
      intro ⟨n, hn, hl⟩
      exact hNo i ⟨n, by rw [← hpres]; exact hn, hl⟩
    have hrhs : ¬ (i = c.nextId + 1 ∨ i = c.nextId + 2 ∨ i = c.nextId + 12) := by
      simp only [inBlock] at hib; omega
    exact iff_of_false hlhs hrhs

/-! ### Tearing down a session -/

theorem disconnectNode_node_ne (c : Ctx) (i j : ℕ) (h : j ≠ i) :
    (disconnectNode c i).node j = c.node j :=
  modifyNode_node_ne _ _ _ _ h

theorem disconnectNode_node_self (c : Ctx) (i : ℕ) :
    (disconnectNode c i).node i = (c.node i).map (fun n => { n with conns := [] }) :=
  modifyNode_node_self _ _ _

theorem disconnectNode_misc (c : Ctx) (i : ℕ) :
    (disconnectNode c i).nextId = c.nextId ∧
    (disconnectNode c i).sampleRate = c.sampleRate ∧
    (disconnectNode c i).currentTime = c.currentTime ∧
    (disconnectNode c i).buffers = c.buffers :=
  modifyNode_misc _ _ _

theorem stopHandle_empty (c : Ctx) : stopHandle c emptyHandle = .ok c := rfl

end

noncomputable section

theorem stopHandle_active (c : Ctx) (L : ℕ)
    (h1 : SourceOk c (L + 1)) (h2 : SourceOk c (L + 2))
    (h3 : SourceOk c (L + 12)) :
    ∃ c2, stopHandle c (handleAt L) = .ok c2 ∧
      c2.nextId = c.nextId ∧ c2.sampleRate = c.sampleRate ∧
      c2.currentTime = c.currentTime ∧ c2.buffers = c.buffers ∧
      (∀ j, ¬ inBlock L j → c2.node j = c.node j) ∧
      (∀ j, (j = L + 1 ∨ j = L + 2 ∨ j = L + 12) →
        c2.node j = (c.node j).map
          (fun n => { n with stoppedFlag := true, conns := [] })) ∧
      (∀ j, inBlock L j → ¬(j = L + 1 ∨ j = L + 2 ∨ j = L + 12) →
        c2.node j = (c.node j).map (fun n => { n with conns := [] })) := by
  obtain ⟨cA, eA, nxA, srA, ctA, bufA, othA, selfA⟩ :=
    stopAndDisconnect_sourceOk c (L + 1) h1
  have h2A : SourceOk cA (L + 2) := by
    obtain ⟨n, hn, hs, hf⟩ := h2
    exact ⟨n, by rw [othA _ (by omega)]; exact hn, hs, hf⟩
  obtain ⟨cB, eB, nxB, srB, ctB, bufB, othB, selfB⟩ :=
    stopAndDisconnect_sourceOk cA (L + 2) h2A
  have h3B : SourceOk cB (L + 12) := by
    obtain ⟨n, hn, hs, hf⟩ := h3
    exact ⟨n, by rw [othB _ (by omega), othA _ (by omega)]; exact hn, hs, hf⟩
  obtain ⟨cC, eC, nxC, srC, ctC, bufC, othC, selfC⟩ :=
    stopAndDisconnect_sourceOk cB (L + 12) h3B
  have hrun : stopHandle c (handleAt L) = .ok
      (disconnectNode (disconnectNode (disconnectNode (disconnectNode
        (disconnectNode (disconnectNode (disconnectNode (disconnectNode
          (disconnectNode (disconnectNode cC (L + 3)) (L + 4)) (L + 6))
            (L + 5)) (L + 7)) L) (L + 8)) (L + 9)) (L + 10)) (L + 11)) := by
    simp only [stopHandle, handleAt, eA, eB, eC, disconnectOpt_some]
  refine ⟨_, hrun, ?_, ?_, ?_, ?_, ?_, ?_, ?_⟩
  · iterate 10 rw [(disconnectNode_misc _ _).1]
    rw [nxC, nxB, nxA]
  · iterate 10 rw [(disconnectNode_misc _ _).2.1]
    rw [srC, srB, srA]
  · iterate 10 rw [(disconnectNode_misc _ _).2.2.1]
    rw [ctC, ctB, ctA]
  · iterate 10 rw [(disconnectNode_misc _ _).2.2.2]
    rw [bufC, bufB, bufA]
  · intro j hj
    simp only [inBlock, not_and, not_lt] at hj
    have hj2 : j < L ∨ L + 13 ≤ j := by
      by_cases h : L ≤ j
      · exact Or.inr (hj h)
      · exact Or.inl (by omega)
    iterate 10 rw [disconnectNode_node_ne _ _ _ (by omega)]
    rw [othC _ (by omega), othB _ (by omega), othA _ (by omega)]
  · intro j hj
    rcases hj with rfl | rfl | rfl
    · iterate 10 rw [disconnectNode_node_ne _ _ _ (by omega)]
      rw [othC _ (by omega), othB _ (by omega), selfA]
    · iterate 10 rw [disconnectNode_node_ne _ _ _ (by omega)]
      rw [othC _ (by omega), selfB, othA _ (by omega)]
    · iterate 10 rw [disconnectNode_node_ne _ _ _ (by omega)]
      rw [selfC, othB _ (by omega), othA _ (by omega)]
  · intro j hjb hjno
    have hcases : j = L ∨ j = L + 3 ∨ j = L + 4 ∨ j = L + 5 ∨ j = L + 6 ∨
        j = L + 7 ∨ j = L + 8 ∨ j = L + 9 ∨ j = L + 10 ∨ j = L + 11 := by
      simp only [inBlock] at hjb
      omega
    have hoth : ∀ j, j ≠ L + 1 → j ≠ L + 2 → j ≠ L + 12 →
        cC.node j = c.node j := by
      intro j ha hb hc
      rw [othC _ hc, othB _ hb, othA _ ha]
    rcases hcases with rfl | rfl | rfl | rfl | rfl | rfl | rfl | rfl | rfl | rfl
    · iterate 4 rw [disconnectNode_node_ne _ _ _ (by omega)]
      rw [disconnectNode_node_self]
      iterate 5 rw [disconnectNode_node_ne _ _ _ (by omega)]
      rw [hoth _ (by omega) (by omega) (by omega)]
    · iterate 9 rw [disconnectNode_node_ne _ _ _ (by omega)]
      rw [disconnectNode_node_self,
        hoth _ (by omega) (by omega) (by omega)]
    · iterate 8 rw [disconnectNode_node_ne _ _ _ (by omega)]
      rw [disconnectNode_node_self]
      iterate 1 rw [disconnectNode_node_ne _ _ _ (by omega)]
      rw [hoth _ (by omega) (by omega) (by omega)]
    · iterate 6 rw [disconnectNode_node_ne _ _ _ (by omega)]
      rw [disconnectNode_node_self]
      iterate 3 rw [disconnectNode_node_ne _ _ _ (by omega)]
      rw [hoth _ (by omega) (by omega) (by omega)]
    · iterate 7 rw [disconnectNode_node_ne _ _ _ (by omega)]
      rw [disconnectNode_node_self]
      iterate 2 rw [disconnectNode_node_ne _ _ _ (by omega)]
      rw [hoth _ (by omega) (by omega) (by omega)]
    · iterate 5 rw [disconnectNode_node_ne _ _ _ (by omega)]
      rw [disconnectNode_node_self]
      iterate 4 rw [disconnectNode_node_ne _ _ _ (by omega)]
      rw [hoth _ (by omega) (by omega) (by omega)]
    · iterate 3 rw [disconnectNode_node_ne _ _ _ (by omega)]
      rw [disconnectNode_node_self]
      iterate 6 rw [disconnectNode_node_ne _ _ _ (by omega)]
      rw [hoth _ (by omega) (by omega) (by omega)]
    · iterate 2 rw [disconnectNode_node_ne _ _ _ (by omega)]
      rw [disconnectNode_node_self]
      iterate 7 rw [disconnectNode_node_ne _ _ _ (by omega)]
      rw [hoth _ (by omega) (by omega) (by omega)]
    · iterate 1 rw [disconnectNode_node_ne _ _ _ (by omega)]
      rw [disconnectNode_node_self]
      iterate 8 rw [disconnectNode_node_ne _ _ _ (by omega)]
      rw [hoth _ (by omega) (by omega) (by omega)]
    · rw [disconnectNode_node_self]
      iterate 9 rw [disconnectNode_node_ne _ _ _ (by omega)]
      rw [hoth _ (by omega) (by omega) (by omega)]

end

noncomputable section

/-! ### stopBinaural and startBinaural under the session invariant -/

theorem stopBinaural_inv (s : EngineState) (hInv : EngineInv s) :
    ∃ s1 c1, stopBinaural s = .ok s1 ∧
      s1.audioContext = some c1 ∧ s1.analyser = s.analyser ∧
      s1.binauralNodes = emptyHandle ∧
      s1.drumBuffers = s.drumBuffers ∧
      s1.chordOscillators = s.chordOscillators ∧
      CtxBound c1 ∧ (∀ i, ¬ liveAt c1 i) := by
  obtain ⟨c, hc, ⟨aa, ha⟩, hB, hIH⟩ := hInv
  rcases hIH with ⟨hE, hNo⟩ | ⟨L, hH, hnx, h1, h2, h3, hlive⟩
  · refine ⟨{ s with audioContext := some c, binauralNodes := emptyHandle }, c,
      ?_, rfl, rfl, rfl, rfl, rfl, hB, hNo⟩
    simp only [stopBinaural, hc, hE, stopHandle_empty]
  · obtain ⟨c2, hrun, nx2, sr2, ct2, buf2, oth2, src2, rest2⟩ :=
      stopHandle_active c L h1 h2 h3
    refine ⟨{ s with audioContext := some c2, binauralNodes := emptyHandle }, c2,
      ?_, rfl, rfl, rfl, rfl, rfl, ?_, ?_⟩
    · simp only [stopBinaural, hc, hH, hrun]
    · intro j hj
      rw [nx2] at hj
      rw [oth2 _ (by simp only [inBlock]; omega)]
      exact hB j hj
    · intro i hlive2
      obtain ⟨n, hn, hsrc, hst, hsf, hcn⟩ := hlive2
      by_cases hib : inBlock L i
      · by_cases hsrc3 : i = L + 1 ∨ i = L + 2 ∨ i = L + 12
        · rw [src2 _ hsrc3] at hn
          rcases hmem : c.node i with _ | n0
          · rw [hmem] at hn; exact Option.noConfusion hn
          · rw [hmem] at hn
            simp only [Option.map_some'] at hn
            cases hn
            simp at hsf
        · rw [rest2 _ hib hsrc3] at hn
          rcases hmem : c.node i with _ | n0
          · rw [hmem] at hn; exact Option.noConfusion hn
          · rw [hmem] at hn
            simp only [Option.map_some'] at hn
            cases hn
            simp at hcn
      · rw [oth2 _ hib] at hn
        have : liveAt c i := ⟨n, hn, hsrc, hst, hsf, hcn⟩
        have := (hlive i).mp this
        simp only [inBlock] at hib
        omega

theorem startBinaural_step (s : EngineState) (hInv : EngineInv s)
    (b β m p : ℝ) (w : Waveform) :
    ∃ s' c' L a, startBinaural s b β m p w = .ok s' ∧
      s'.audioContext = some c' ∧ s'.analyser = some a ∧ s.analyser = some a ∧
      s'.drumBuffers = s.drumBuffers ∧
      s'.chordOscillators = s.chordOscillators ∧
      s'.binauralNodes = handleAt L ∧ c'.nextId = L + 13 ∧
      (∀ i, liveAt c' i ↔ (i = L + 1 ∨ i = L + 2 ∨ i = L + 12)) ∧
      c'.node (L + 1) = some { baseNode .oscillator with
                               wave := w, freq := b, started := true,
                               conns := [⟨L + 3, 0, 0⟩] } ∧
      c'.node (L + 2) = some { baseNode .oscillator with
                               wave := w, freq := b + β, started := true,
                               conns := [⟨L + 4, 0, 0⟩] } ∧
      c'.node (L + 5) = some { baseNode .gainNode with
                               gain := (1 - m) * 0.3,
                               conns := [⟨L, 0, 0⟩, ⟨L, 0, 1⟩] } ∧
      c'.node (L + 6) = some { baseNode .gainNode with
                               gain := m * 0.3,
                               conns := [⟨L, 0, 0⟩, ⟨L, 0, 1⟩] } ∧
      (∃ bid, c'.node (L + 12) = some { baseNode .bufferSource with
                                        buffer := some bid, loop := true,
                                        started := true,
                                        conns := [⟨L + 6, 0, 0⟩] }) ∧
      EngineInv s' := by
  obtain ⟨c, hc, ⟨aa, ha⟩, hB, hIH⟩ := hInv
  obtain ⟨s1, c1, hstop, hc1, han1, hh1, hdb1, hch1, hB1, hNo1⟩ :=
    stopBinaural_inv s ⟨c, hc, ⟨aa, ha⟩, hB, hIH⟩
  have hrun : startBinaural s b β m p w = .ok
      { s1 with audioContext := some (buildBinaural c1 aa b β m p w).1,
                binauralNodes := (buildBinaural c1 aa b β m p w).2 } := by
    simp only [startBinaural, hc, ha, hstop, hc1]
  refine ⟨_, (buildBinaural c1 aa b β m p w).1, c1.nextId, aa, hrun,
    rfl, ?_, ha, ?_, ?_, ?_, bb_nextId c1 aa b β m p w,
    bb_live c1 aa b β m p w hNo1,
    bb_node_leftOsc c1 aa b β m p w, bb_node_rightOsc c1 aa b β m p w,
    bb_node_toneGain c1 aa b β m p w, bb_node_noiseGain c1 aa b β m p w,
    ⟨c1.buffers.length, bb_node_noiseSource c1 aa b β m p w⟩, ?_⟩
  · show s1.analyser = some aa
    rw [han1, ha]
  · show s1.drumBuffers = s.drumBuffers
    exact hdb1
  · show s1.chordOscillators = s.chordOscillators
    exact hch1
  · show (buildBinaural c1 aa b β m p w).2 = handleAt c1.nextId
    exact buildBinaural_snd c1 aa b β m p w
  · refine ⟨(buildBinaural c1 aa b β m p w).1, rfl, ⟨aa, ?_⟩, ?_, ?_⟩
    · show s1.analyser = some aa
      rw [han1, ha]
    · intro j hj
      rw [bb_nextId] at hj
      rw [bb_old c1 aa b β m p w j (by simp only [inBlock]; omega)]
      exact hB1 j (by omega)
    · refine Or.inr ⟨c1.nextId, buildBinaural_snd c1 aa b β m p w,
        bb_nextId c1 aa b β m p w, ?_, ?_, ?_,
        bb_live c1 aa b β m p w hNo1⟩
      · exact ⟨_, bb_node_leftOsc c1 aa b β m p w, rfl, rfl⟩
      · exact ⟨_, bb_node_rightOsc c1 aa b β m p w, rfl, rfl⟩
      · exact ⟨_, bb_node_noiseSource c1 aa b β m p w, rfl, rfl⟩

end

noncomputable section

/-! ### The freshly initialized engine -/

theorem initCtx_nextId (sr : ℕ) : (initCtx sr).nextId = 2 := rfl

theorem initCtx_node_zero (sr : ℕ) :
    (initCtx sr).node 0 = some (baseNode .destination) := by
  simp [initCtx, initCtxTriple, loadDrumSamples, createBuffer,
    createAnalyserNode, addNode, setFftSize, connect, modifyNode, setNodeAt,
    updFn, baseNode, mapSet]

theorem initCtx_node_one (sr : ℕ) :
    (initCtx sr).node 1 = some { baseNode .analyserNode with
                                 fftSize := 2048, conns := [⟨0, 0, 0⟩] } := by
  simp [initCtx, initCtxTriple, loadDrumSamples, createBuffer,
    createAnalyserNode, addNode, setFftSize, connect, modifyNode, setNodeAt,
    updFn, baseNode, mapSet]

theorem initCtx_node_ge (sr j : ℕ) (hj : 2 ≤ j) : (initCtx sr).node j = none := by
  have h0 : j ≠ 0 := by omega
  have h1 : j ≠ 1 := by omega
  simp [initCtx, initCtxTriple, loadDrumSamples, createBuffer,
    createAnalyserNode, addNode, setFftSize, connect, modifyNode, setNodeAt,
    updFn, baseNode, mapSet, h0, h1]

theorem initCtx_buffers (sr : ℕ) :
    (initCtx sr).buffers =
      [⟨1, (sr : ℝ) * 0.5, sr⟩, ⟨1, (sr : ℝ) * 0.2, sr⟩,
       ⟨1, (sr : ℝ) * 0.1, sr⟩] := by
  simp [initCtx, initCtxTriple, loadDrumSamples, createBuffer,
    createAnalyserNode, addNode, setFftSize, connect, modifyNode, setNodeAt,
    updFn, baseNode, mapSet]

theorem initEngine_audioContext (sr : ℕ) :
    (initEngine sr).audioContext = some (initCtx sr) := rfl

theorem initEngine_analyser (sr : ℕ) : (initEngine sr).analyser = some 1 := rfl

theorem initEngine_drumBuffers (sr : ℕ) :
    (initEngine sr).drumBuffers = [("kick", 0), ("snare", 1), ("hihat", 2)] := by
  simp [initEngine, initCtxTriple, loadDrumSamples, createBuffer,
    createAnalyserNode, addNode, setFftSize, connect, modifyNode, setNodeAt,
    updFn, baseNode, mapSet]

theorem initCtx_noLive (sr : ℕ) : ∀ i, ¬ liveAt (initCtx sr) i := by
  intro i hl
  obtain ⟨n, hn, hl⟩ := hl
  have hc : i = 0 ∨ i = 1 ∨ 2 ≤ i := by omega
  rcases hc with rfl | rfl | hge
  · rw [initCtx_node_zero] at hn
    cases hn
    simp [Node.isLive, Node.isSource, baseNode] at hl
  · rw [initCtx_node_one] at hn
    cases hn
    simp [Node.isLive, Node.isSource, baseNode] at hl
  · rw [initCtx_node_ge sr i hge] at hn
    exact Option.noConfusion hn

theorem initEngine_inv (sr : ℕ) : EngineInv (initEngine sr) := by
  refine ⟨initCtx sr, rfl, ⟨1, rfl⟩, ?_, Or.inl ⟨rfl, initCtx_noLive sr⟩⟩
  intro j hj
  rw [initCtx_nextId] at hj
  exact initCtx_node_ge sr j hj

/-! ### Iterated starts -/

theorem iterStarts_cons (s : EngineState) (p : StartParams)
    (ps : List StartParams) (s1 : EngineState)
    (h : startBinaural s p.baseFreq p.beatFreq p.noiseMix p.panValue p.wave
      = .ok s1) :
    iterStarts s (p :: ps) = iterStarts s1 ps := by
  simp only [iterStarts, List.foldlM, h]
  rfl

theorem iterStarts_last : ∀ (ps : List StartParams) (p : StartParams)
    (s : EngineState), EngineInv s →
    ∃ s' c' L, iterStarts s (ps ++ [p]) = .ok s' ∧
      s'.audioContext = some c' ∧
      s'.binauralNodes = handleAt L ∧ c'.nextId = L + 13 ∧
      (∀ i, liveAt c' i ↔ (i = L + 1 ∨ i = L + 2 ∨ i = L + 12)) ∧
      c'.node (L + 1) = some { baseNode .oscillator with
                               wave := p.wave, freq := p.baseFreq,
                               started := true, conns := [⟨L + 3, 0, 0⟩] } ∧
      c'.node (L + 2) = some { baseNode .oscillator with
                               wave := p.wave,
                               freq := p.baseFreq + p.beatFreq,
                               started := true, conns := [⟨L + 4, 0, 0⟩] } ∧
      (∃ bid, c'.node (L + 12) = some { baseNode .bufferSource with
                                        buffer := some bid, loop := true,
                                        started := true,
                                        conns := [⟨L + 6, 0, 0⟩] }) ∧
      EngineInv s' := by
  intro ps
  induction ps with
  | nil =>
    intro p s hInv
    obtain ⟨s', c', L, a, hrun, hctx, _, _, _, _, hhandle, hnx, hlive,
      hn1, hn2, _, _, hn12, hInv'⟩ := startBinaural_step s hInv
      p.baseFreq p.beatFreq p.noiseMix p.panValue p.wave
    refine ⟨s', c', L, ?_, hctx, hhandle, hnx, hlive, hn1, hn2, hn12, hInv'⟩
    rw [List.nil_append, iterStarts_cons s p [] s' hrun]
    rfl
  | cons q qs ih =>
    intro p s hInv
    obtain ⟨s1, c1, L1, a1, hrun, _, _, _, _, _, _, _, _, _, _, _, _, _,
      hInv1⟩ := startBinaural_step s hInv
      q.baseFreq q.beatFreq q.noiseMix q.panValue q.wave
    obtain ⟨s', c', L, hiter, rest⟩ := ih p s1 hInv1
    refine ⟨s', c', L, ?_, rest⟩
    rw [List.cons_append, iterStarts_cons s q (qs ++ [p]) s1 hrun]
    exact hiter

end

noncomputable section

/-! ### Claims C1 - C3 -/

/-- C1: for every baseFrequency and beatFrequency, after
`start(baseFrequency, beatFrequency, …)` the left oscillator's frequency
equals `baseFrequency` and the right oscillator's frequency equals
`baseFrequency + beatFrequency`; and when a session is active,
`updateFrequencies(baseFrequency, beatFrequency)` schedules the same pair of
values on the two oscillators as an immediate value change
(`setValueAtTime`) at the current audio-clock time. -/
theorem c1_binaural_frequencies :
    (∀ (s : EngineState) (b β m p : ℝ) (w : Waveform), EngineInv s →
      ∃ s' c' li ri, startBinaural s b β m p w = .ok s' ∧
        s'.audioContext = some c' ∧
        s'.binauralNodes.leftOsc = some li ∧
        s'.binauralNodes.rightOsc = some ri ∧
        (∃ nl, c'.node li = some nl ∧ nl.freq = b) ∧
        (∃ nr, c'.node ri = some nr ∧ nr.freq = b + β)) ∧
    (∀ (s : EngineState) (c : Ctx) (li ri : ℕ) (nl nr : Node) (b β : ℝ),
      s.audioContext = some c →
      s.binauralNodes.leftOsc = some li →
      s.binauralNodes.rightOsc = some ri →
      li ≠ ri → c.node li = some nl → c.node ri = some nr →
      ∃ c', (updateBinauralFrequencies s b β).audioContext = some c' ∧
        c'.node li = some { nl with
          freqEvents := nl.freqEvents ++ [⟨b, c.currentTime⟩] } ∧
        c'.node ri = some { nr with
          freqEvents := nr.freqEvents ++ [⟨b + β, c.currentTime⟩] }) := by
  constructor
  · intro s b β m p w hInv
    obtain ⟨s', c', L, a, hrun, hctx, _, _, _, _, hhandle, hnx, hlive,
      hn1, hn2, hn5, hn6, hn12, hInv'⟩ := startBinaural_step s hInv b β m p w
    refine ⟨s', c', L + 1, L + 2, hrun, hctx, ?_, ?_,
      ⟨_, hn1, rfl⟩, ⟨_, hn2, rfl⟩⟩
    · rw [hhandle]; rfl
    · rw [hhandle]; rfl
  · intro s c li ri nl nr b β hc hli hri hne hnl hnr
    have hred : updateBinauralFrequencies s b β =
        { s with audioContext := some (freqSetValueAtTime
            (freqSetValueAtTime c li b c.currentTime) ri (b + β)
            c.currentTime) } := by
      simp only [updateBinauralFrequencies, hli, hri, hc]
    refine ⟨_, by rw [hred], ?_, ?_⟩
    · rw [freqSetValueAtTime, freqSetValueAtTime,
        modifyNode_node_ne _ _ _ _ hne, modifyNode_node_self, hnl]
      rfl
    · rw [freqSetValueAtTime, freqSetValueAtTime, modifyNode_node_self,
        modifyNode_node_ne _ _ _ _ (Ne.symm hne), hnr]
      rfl

/-- Witness for C1 at concrete inputs: a start on the freshly initialized
engine at 200 Hz base and 4 Hz beat, and a live update on a concrete
running session. -/
theorem c1_binaural_frequencies_witness :
    (∃ s' c' li ri, startBinaural (initEngine 44100) 200 4 0 0 .sine = .ok s' ∧
      s'.audioContext = some c' ∧
      s'.binauralNodes.leftOsc = some li ∧
      s'.binauralNodes.rightOsc = some ri ∧
      (∃ nl, c'.node li = some nl ∧ nl.freq = 200) ∧
      (∃ nr, c'.node ri = some nr ∧ nr.freq = 200 + 4)) ∧
    (∃ c', (updateBinauralFrequencies demoEngine 210 6).audioContext = some c' ∧
      c'.node 3 = some { ({ baseNode .oscillator with started := true } : Node)
        with freqEvents :=
          ({ baseNode .oscillator with started := true } : Node).freqEvents ++
            [⟨210, demoCtx.currentTime⟩] } ∧
      c'.node 4 = some { ({ baseNode .oscillator with started := true } : Node)
        with freqEvents :=
          ({ baseNode .oscillator with started := true } : Node).freqEvents ++
            [⟨210 + 6, demoCtx.currentTime⟩] }) :=
  ⟨c1_binaural_frequencies.1 (initEngine 44100) 200 4 0 0 .sine
      (initEngine_inv 44100),
   c1_binaural_frequencies.2 demoEngine demoCtx 3 4
      { baseNode .oscillator with started := true }
      { baseNode .oscillator with started := true } 210 6
      rfl rfl rfl (by decide) rfl rfl⟩

/-- C2: for every mix, both `start(…, noiseMix, …)` and, on an active
session, `updateNoiseMix(mix)` set the tone gain to `(1 - mix) * 0.3` and
the noise gain to `mix * 0.3`; the two levels always sum to the constant
`0.3` ceiling. -/
theorem c2_noise_mix :
    (∀ (s : EngineState) (b β m p : ℝ) (w : Waveform),
      0 ≤ m → m ≤ 1 → EngineInv s →
      ∃ s' c' ti ni, startBinaural s b β m p w = .ok s' ∧
        s'.audioContext = some c' ∧
        s'.binauralNodes.toneGain = some ti ∧
        s'.binauralNodes.noiseGain = some ni ∧
        (∃ nt, c'.node ti = some nt ∧ nt.gain = (1 - m) * 0.3) ∧
        (∃ nn, c'.node ni = some nn ∧ nn.gain = m * 0.3) ∧
        (1 - m) * 0.3 + m * 0.3 = 0.3) ∧
    (∀ (s : EngineState) (c : Ctx) (ti ni : ℕ) (nt nn : Node) (m : ℝ),
      0 ≤ m → m ≤ 1 → s.audioContext = some c →
      s.binauralNodes.noiseGain = some ni →
      s.binauralNodes.toneGain = some ti →
      ti ≠ ni → c.node ti = some nt → c.node ni = some nn →
      ∃ c', (updateNoiseMix s m).audioContext = some c' ∧
        c'.node ti = some { nt with gainEvents :=
          nt.gainEvents ++ [⟨(1 - m) * 0.3, c.currentTime⟩] } ∧
        c'.node ni = some { nn with gainEvents :=
          nn.gainEvents ++ [⟨m * 0.3, c.currentTime⟩] } ∧
        (1 - m) * 0.3 + m * 0.3 = 0.3) := by
  constructor
  · intro s b β m p w hm0 hm1 hInv
    obtain ⟨s', c', L, a, hrun, hctx, _, _, _, _, hhandle, hnx, hlive,
      hn1, hn2, hn5, hn6, hn12, hInv'⟩ := startBinaural_step s hInv b β m p w
    refine ⟨s', c', L + 5, L + 6, hrun, hctx, ?_, ?_,
      ⟨_, hn5, rfl⟩, ⟨_, hn6, rfl⟩, by ring⟩
    · rw [hhandle]; rfl
    · rw [hhandle]; rfl
  · intro s c ti ni nt nn m hm0 hm1 hc hni hti hne hnt hnn
    have hred : updateNoiseMix s m =
        { s with audioContext := some (gainSetValueAtTime
            (gainSetValueAtTime c ti ((1 - m) * 0.3) c.currentTime) ni
            (m * 0.3) c.currentTime) } := by
      simp only [updateNoiseMix, hni, hti, hc]
    refine ⟨_, by rw [hred], ?_, ?_, by ring⟩
    · rw [gainSetValueAtTime, gainSetValueAtTime,
        modifyNode_node_ne _ _ _ _ hne, modifyNode_node_self, hnt]
      rfl
    · rw [gainSetValueAtTime, gainSetValueAtTime, modifyNode_node_self,
        modifyNode_node_ne _ _ _ _ (Ne.symm hne), hnn]
      rfl

/-- Witness for C2 at concrete inputs: a start with mix `1/2` on the freshly
initialized engine, and a live `updateNoiseMix (1/2)` on a concrete running
session. -/
theorem c2_noise_mix_witness :
    (∃ s' c' ti ni, startBinaural (initEngine 44100) 200 4 (1/2) 0 .sine
        = .ok s' ∧
      s'.audioContext = some c' ∧
      s'.binauralNodes.toneGain = some ti ∧
      s'.binauralNodes.noiseGain = some ni ∧
      (∃ nt, c'.node ti = some nt ∧ nt.gain = ((1:ℝ) - 1/2) * 0.3) ∧
      (∃ nn, c'.node ni = some nn ∧ nn.gain = (1:ℝ)/2 * 0.3) ∧
      ((1:ℝ) - 1/2) * 0.3 + 1/2 * 0.3 = 0.3) ∧
    (∃ c', (updateNoiseMix demoEngine (1/2)).audioContext = some c' ∧
      c'.node 7 = some { (baseNode .gainNode) with gainEvents :=
        (baseNode .gainNode).gainEvents ++
          [⟨((1:ℝ) - 1/2) * 0.3, demoCtx.currentTime⟩] } ∧
      c'.node 8 = some { (baseNode .gainNode) with gainEvents :=
        (baseNode .gainNode).gainEvents ++
          [⟨(1:ℝ)/2 * 0.3, demoCtx.currentTime⟩] } ∧
      ((1:ℝ) - 1/2) * 0.3 + 1/2 * 0.3 = 0.3) :=
  ⟨c2_noise_mix.1 (initEngine 44100) 200 4 (1/2) 0 .sine
      (by norm_num) (by norm_num) (initEngine_inv 44100),
   c2_noise_mix.2 demoEngine demoCtx 7 8 (baseNode .gainNode)
      (baseNode .gainNode) (1/2) (by norm_num) (by norm_num)
      rfl rfl rfl (by decide) rfl rfl⟩

/-- C3: `start()` first performs a full `stop()` of any prior session, so
after any nonempty sequence of consecutive `start()` calls from the freshly
initialized engine, exactly one oscillator pair and one noise source remain
started and connected (the live sources are exactly the two oscillators and
one buffer source of the last call), and the handle holds exactly the
thirteen nodes of the most recent start. -/
theorem c3_single_session (sr : ℕ) (ps : List StartParams) (p : StartParams) :
    ∃ s' c' L, iterStarts (initEngine sr) (ps ++ [p]) = .ok s' ∧
      s'.audioContext = some c' ∧
      s'.binauralNodes = handleAt L ∧ c'.nextId = L + 13 ∧
      (∀ i, liveAt c' i ↔ (i = L + 1 ∨ i = L + 2 ∨ i = L + 12)) ∧
      (∃ n1, c'.node (L + 1) = some n1 ∧ n1.kind = .oscillator ∧
        n1.freq = p.baseFreq ∧ n1.started = true) ∧
      (∃ n2, c'.node (L + 2) = some n2 ∧ n2.kind = .oscillator ∧
        n2.freq = p.baseFreq + p.beatFreq ∧ n2.started = true) ∧
      (∃ n3, c'.node (L + 12) = some n3 ∧ n3.kind = .bufferSource ∧
        n3.started = true) := by
  obtain ⟨s', c', L, hiter, hctx, hhandle, hnx, hlive, hn1, hn2, hn12, hInv'⟩ :=
    iterStarts_last ps p (initEngine sr) (initEngine_inv sr)
  obtain ⟨bid, hn12'⟩ := hn12
  exact ⟨s', c', L, hiter, hctx, hhandle, hnx, hlive,
    ⟨_, hn1, rfl, rfl, rfl⟩, ⟨_, hn2, rfl, rfl, rfl⟩, ⟨_, hn12', rfl, rfl⟩⟩

end

noncomputable section

/-! ### Claims C4, C7, C8, C10 -/

/-- C4: `stop()` and `stopChord()` are idempotent and never raise: calling
`stop()` with no active session (or twice in a row) succeeds, is a no-op and
leaves the handle all-null; `stopChord()` with zero active voices is the
identity, always leaves the voice set empty, and calling it again is a
no-op. -/
theorem c4_stop_idempotent :
    (∀ s : EngineState, s.binauralNodes = emptyHandle → stopBinaural s = .ok s) ∧
    (∀ s s1 : EngineState, stopBinaural s = .ok s1 →
      s1.binauralNodes = emptyHandle ∧ stopBinaural s1 = .ok s1) ∧
    (∀ s : EngineState, s.chordOscillators = [] → stopChord s = s) ∧
    (∀ s : EngineState, (stopChord s).chordOscillators = [] ∧
      stopChord (stopChord s) = stopChord s) := by
  have hstop : ∀ s : EngineState, s.binauralNodes = emptyHandle →
      stopBinaural s = .ok s := by
    intro s h
    rcases hact : s.audioContext with _ | c
    · simp only [stopBinaural, hact]
      rw [← h, ← hact]
    · simp only [stopBinaural, hact, h, stopHandle_empty]
      rw [← h, ← hact]
  have hpost : ∀ s s1 : EngineState, stopBinaural s = .ok s1 →
      s1.binauralNodes = emptyHandle := by
    intro s s1 h
    rcases hact : s.audioContext with _ | c
    · simp only [stopBinaural, hact] at h
      cases h
      rfl
    · simp only [stopBinaural, hact] at h
      rcases hsh : stopHandle c s.binauralNodes with e | c2
      · rw [hsh] at h; exact Except.noConfusion h
      · rw [hsh] at h
        cases h
        rfl
  have hchord : ∀ s : EngineState, s.chordOscillators = [] →
      stopChord s = s := by
    intro s h
    rcases hact : s.audioContext with _ | c
    · simp only [stopChord, hact]
      rw [← h, ← hact]
    · simp only [stopChord, hact, h, List.foldl_nil]
      rw [← h, ← hact]
  have hchordpost : ∀ s : EngineState, (stopChord s).chordOscillators = [] := by
    intro s
    rcases hact : s.audioContext with _ | c <;>
      simp only [stopChord, hact]
  exact ⟨hstop,
    fun s s1 h => ⟨hpost s s1 h, hstop s1 (hpost s s1 h)⟩,
    hchord,
    fun s => ⟨hchordpost s, hchord (stopChord s) (hchordpost s)⟩⟩

/-- Witness for C4: concrete redundant teardowns on the freshly initialized
engine and on a running session state. -/
theorem c4_stop_idempotent_witness :
    (stopBinaural (initEngine 44100) = .ok (initEngine 44100)) ∧
    ((initEngine 44100).binauralNodes = emptyHandle ∧
      stopBinaural (initEngine 44100) = .ok (initEngine 44100)) ∧
    (stopChord (initEngine 44100) = initEngine 44100) ∧
    ((stopChord demoEngine).chordOscillators = [] ∧
      stopChord (stopChord demoEngine) = stopChord demoEngine) :=
  ⟨c4_stop_idempotent.1 (initEngine 44100) rfl,
   c4_stop_idempotent.2.1 (initEngine 44100) (initEngine 44100)
     (c4_stop_idempotent.1 (initEngine 44100) rfl),
   c4_stop_idempotent.2.2.1 (initEngine 44100) rfl,
   c4_stop_idempotent.2.2.2 demoEngine⟩

/-- C7: `semitoneToFrequency(semitone, octave)` equals
`261.63 · 2^(semitone/12) · 2^(octave-4)` for every integer semitone and
octave, and in particular maps `(0,4)` to 261.63, `(12,4)` to 523.26 and
`(0,5)` to 523.26, so one octave up doubles the frequency. -/
theorem c7_semitone_to_frequency :
    (∀ s o : ℤ, semitoneToFrequency s o =
      261.63 * (2 : ℝ) ^ ((s : ℝ) / 12) * (2 : ℝ) ^ ((o : ℝ) - 4)) ∧
    semitoneToFrequency 0 4 = 261.63 ∧
    semitoneToFrequency 12 4 = 523.26 ∧
    semitoneToFrequency 0 5 = 523.26 ∧
    semitoneToFrequency 0 5 = 2 * semitoneToFrequency 0 4 := by
  have hz : ∀ s o : ℤ, semitoneToFrequency s o =
      261.63 * (2 : ℝ) ^ ((s : ℝ) / 12) * (2 : ℝ) ^ ((o : ℝ) - 4) :=
    fun s o => rfl
  have h04 : semitoneToFrequency 0 4 = 261.63 := by
    rw [hz]
    rw [show (((0 : ℤ) : ℝ)) / 12 = (0 : ℝ) by norm_num,
      show (((4 : ℤ) : ℝ)) - 4 = (0 : ℝ) by norm_num,
      Real.rpow_zero]
    norm_num
  have h124 : semitoneToFrequency 12 4 = 523.26 := by
    rw [hz]
    rw [show (((12 : ℤ) : ℝ)) / 12 = (1 : ℝ) by norm_num,
      show (((4 : ℤ) : ℝ)) - 4 = (0 : ℝ) by norm_num,
      Real.rpow_one, Real.rpow_zero]
    norm_num
  have h05 : semitoneToFrequency 0 5 = 523.26 := by
    rw [hz]
    rw [show (((0 : ℤ) : ℝ)) / 12 = (0 : ℝ) by norm_num,
      show (((5 : ℤ) : ℝ)) - 4 = (1 : ℝ) by norm_num,
      Real.rpow_zero, Real.rpow_one]
    norm_num
  exact ⟨hz, h04, h124, h05, by rw [h05, h04]; norm_num⟩

/-- C8: when no binaural session is active (all-null handle, as before
`start()` or after `stop()`), each of the four update operations is a
silent no-op returning the state unchanged. -/
theorem c8_updates_noop (s : EngineState) (b β m p : ℝ) (w : Waveform)
    (h : s.binauralNodes = emptyHandle) :
    updateBinauralFrequencies s b β = s ∧ updateNoiseMix s m = s ∧
    updatePanning s p = s ∧ updateWaveform s w = s := by
  refine ⟨?_, ?_, ?_, ?_⟩
  · simp [updateBinauralFrequencies, h, emptyHandle]
  · simp [updateNoiseMix, h, emptyHandle]
  · simp [updatePanning, h, emptyHandle]
  · simp [updateWaveform, h, emptyHandle]

/-- Witness for C8: all four updates leave the freshly initialized engine
unchanged. -/
theorem c8_updates_noop_witness :
    updateBinauralFrequencies (initEngine 44100) 210 6 = initEngine 44100 ∧
    updateNoiseMix (initEngine 44100) (1/2) = initEngine 44100 ∧
    updatePanning (initEngine 44100) (1/2) = initEngine 44100 ∧
    updateWaveform (initEngine 44100) .square = initEngine 44100 :=
  c8_updates_noop (initEngine 44100) 210 6 (1/2) (1/2) .square rfl

/-- C10: every sound-producing entry point is guarded on engine
initialization: when the audio context or the analyser is missing,
`startBinaural`, `playChord` and `playDrumSound` return immediately without
error and without changing any state or creating any node. -/
theorem c10_init_guards (s : EngineState) (b β m p : ℝ) (w : Waveform)
    (notes : List ℤ) (octave : ℤ) (volume : ℝ) (t : String)
    (h : s.audioContext = none ∨ s.analyser = none) :
    startBinaural s b β m p w = .ok s ∧
    playChord s notes octave volume = s ∧
    playDrumSound s t = s := by
  rcases h with hctx | han
  · refine ⟨?_, ?_, ?_⟩
    · simp only [startBinaural, hctx]
    · simp only [playChord, hctx]
    · simp only [playDrumSound, hctx]
  · rcases hctx : s.audioContext with _ | c
    · refine ⟨?_, ?_, ?_⟩
      · simp only [startBinaural, hctx]
      · simp only [playChord, hctx]
      · simp only [playDrumSound, hctx]
    · refine ⟨?_, ?_, ?_⟩
      · simp only [startBinaural, hctx, han]
      · simp only [playChord, hctx, han]
      · simp only [playDrumSound, hctx, han]

/-- Witness for C10: on the never-initialized hook state, all three entry
points are no-ops. -/
theorem c10_init_guards_witness :
    startBinaural blankEngine 200 4 0 0 .sine = .ok blankEngine ∧
    playChord blankEngine [0, 4, 7] 4 1 = blankEngine ∧
    playDrumSound blankEngine "kick" = blankEngine :=
  c10_init_guards blankEngine 200 4 0 0 .sine [0, 4, 7] 4 1 "kick"
    (Or.inl rfl)

end

noncomputable section

/-! ### Claim C5 -/

/-- C5: the sample bank synthesizes exactly three buffers from the
closed-form envelope formulas, sampling at `t = i / sampleRate`: the kick is
a 0.5-second buffer with value `sin(2π·60·t) · e^(-t/0.1) · 0.5`, the snare
a 0.2-second buffer with value
`(noise(t)·0.3 + sin(2π·200·t)·0.2) · e^(-t/0.05)` where `noise(t)` is a
fresh uniform random value per sample, and the hi-hat a 0.1-second buffer
with value `noise(t) · e^(-t/0.02) · 0.3`; the initialized engine holds
exactly these three buffers under the keys kick, snare, hihat. -/
theorem c5_drum_synthesis (sr : ℕ) (rnd : ℕ → ℝ) (i : ℕ)
    (hsr : (sr : ℝ) ≠ 0) :
    createKickSample sr i =
      Real.sin (2 * Real.pi * 60 * ((i : ℝ) / sr)) *
        Real.exp (-((i : ℝ) / sr) / 0.1) * 0.5 ∧
    createSnareSample rnd sr i =
      ((rnd i * 2 - 1) * 0.3 +
        Real.sin (2 * Real.pi * 200 * ((i : ℝ) / sr)) * 0.2) *
        Real.exp (-((i : ℝ) / sr) / 0.05) ∧
    createHihatSample rnd sr i =
      (rnd i * 2 - 1) * Real.exp (-((i : ℝ) / sr) / 0.02) * 0.3 ∧
    (∃ c, (initEngine sr).audioContext = some c ∧
      c.buffers = [⟨1, (sr : ℝ) * 0.5, sr⟩, ⟨1, (sr : ℝ) * 0.2, sr⟩,
        ⟨1, (sr : ℝ) * 0.1, sr⟩] ∧
      ((sr : ℝ) * 0.5) / sr = 0.5 ∧ ((sr : ℝ) * 0.2) / sr = 0.2 ∧
      ((sr : ℝ) * 0.1) / sr = 0.1) ∧
    (initEngine sr).drumBuffers = [("kick", 0), ("snare", 1), ("hihat", 2)] := by
  have hdur : ∀ d : ℝ, ((sr : ℝ) * d) / sr = d := by
    intro d
    rw [mul_comm, mul_div_assoc, div_self hsr, mul_one]
  refine ⟨?_, ?_, ?_, ⟨initCtx sr, rfl, initCtx_buffers sr, hdur 0.5, hdur 0.2,
    hdur 0.1⟩, initEngine_drumBuffers sr⟩
  · rw [createKickSample,
      show (60 : ℝ) * 2 * Real.pi * i / sr =
        2 * Real.pi * 60 * ((i : ℝ) / sr) by ring,
      show -((i : ℝ)) / ((sr : ℝ) * 0.1) = -((i : ℝ) / sr) / 0.1 by ring]
  · rw [createSnareSample,
      show (200 : ℝ) * 2 * Real.pi * i / sr =
        2 * Real.pi * 200 * ((i : ℝ) / sr) by ring,
      show -((i : ℝ)) / ((sr : ℝ) * 0.05) = -((i : ℝ) / sr) / 0.05 by ring]
  · rw [createHihatSample,
      show -((i : ℝ)) / ((sr : ℝ) * 0.02) = -((i : ℝ) / sr) / 0.02 by ring]

/-- Witness for C5 at the standard 44100 Hz sample rate, sample 0, with the
zero randomness oracle. -/
theorem c5_drum_synthesis_witness :
    createKickSample 44100 0 =
      Real.sin (2 * Real.pi * 60 * (((0 : ℕ) : ℝ) / ((44100 : ℕ) : ℝ))) *
        Real.exp (-(((0 : ℕ) : ℝ) / ((44100 : ℕ) : ℝ)) / 0.1) * 0.5 ∧
    createSnareSample (fun _ => 0) 44100 0 =
      (((0 : ℝ) * 2 - 1) * 0.3 +
        Real.sin (2 * Real.pi * 200 * (((0 : ℕ) : ℝ) / ((44100 : ℕ) : ℝ))) * 0.2) *
        Real.exp (-(((0 : ℕ) : ℝ) / ((44100 : ℕ) : ℝ)) / 0.05) ∧
    createHihatSample (fun _ => 0) 44100 0 =
      ((0 : ℝ) * 2 - 1) *
        Real.exp (-(((0 : ℕ) : ℝ) / ((44100 : ℕ) : ℝ)) / 0.02) * 0.3 ∧
    (∃ c, (initEngine 44100).audioContext = some c ∧
      c.buffers = [⟨1, ((44100 : ℕ) : ℝ) * 0.5, 44100⟩,
        ⟨1, ((44100 : ℕ) : ℝ) * 0.2, 44100⟩,
        ⟨1, ((44100 : ℕ) : ℝ) * 0.1, 44100⟩] ∧
      (((44100 : ℕ) : ℝ) * 0.5) / ((44100 : ℕ) : ℝ) = 0.5 ∧
      (((44100 : ℕ) : ℝ) * 0.2) / ((44100 : ℕ) : ℝ) = 0.2 ∧
      (((44100 : ℕ) : ℝ) * 0.1) / ((44100 : ℕ) : ℝ) = 0.1) ∧
    (initEngine 44100).drumBuffers = [("kick", 0), ("snare", 1), ("hihat", 2)] :=
  c5_drum_synthesis 44100 (fun _ => 0) 0 (by norm_num)

end

noncomputable section

/-! ### Claim C9 -/

theorem playDrumBody_eq (c : Ctx) (a b : ℕ) :
    playDrumBody c a b = runOps c (drumOps c.nextId b a) := by
  simp [playDrumBody, drumOps, runOps, runOp, createBufferSource, createGain,
    addNode, setBuffer, setGainValue, connect, nodeStart, modifyNode,
    setNodeAt, updFn, baseNode, Nat.add_assoc]

theorem drumOps_bounded (L b a : ℕ) : OpsBounded L (L + 2) (drumOps L b a) := by
  simp [drumOps, OpsBounded]

theorem playDrumBody_node_source (c : Ctx) (a b : ℕ) :
    (playDrumBody c a b).node c.nextId =
      some { baseNode .bufferSource with
             buffer := some b, started := true,
             conns := [⟨c.nextId + 1, 0, 0⟩] } := by
  simp [playDrumBody, createBufferSource, createGain, addNode, setBuffer,
    setGainValue, connect, nodeStart, modifyNode, setNodeAt, updFn, baseNode,
    Nat.add_assoc]

theorem playDrumBody_node_gain (c : Ctx) (a b : ℕ) :
    (playDrumBody c a b).node (c.nextId + 1) =
      some { baseNode .gainNode with
             gain := 0.5, conns := [⟨a, 0, 0⟩] } := by
  simp [playDrumBody, createBufferSource, createGain, addNode, setBuffer,
    setGainValue, connect, nodeStart, modifyNode, setNodeAt, updFn, baseNode,
    Nat.add_assoc]

theorem playDrumBody_node_old (c : Ctx) (a b j : ℕ) (h0 : j ≠ c.nextId)
    (h1 : j ≠ c.nextId + 1) : (playDrumBody c a b).node j = c.node j := by
  rw [playDrumBody_eq]
  by_cases hlow : j < c.nextId
  · exact runOps_node_low _ _ _ _ _ (drumOps_bounded _ _ _) le_rfl hlow
  · exact runOps_node_high _ _ _ _ _ (drumOps_bounded _ _ _) le_rfl (by omega)

theorem playDrumBody_buffers (c : Ctx) (a b : ℕ) :
    (playDrumBody c a b).buffers = c.buffers := by
  rw [playDrumBody_eq]
  have h := (runOps_misc (drumOps c.nextId b a) c).2.2
  rw [h]
  simp [drumOps, gbufs]

/-- C9: `trigger(type)` with a type outside kick/snare/hihat is a no-op on
the initialized engine; with a known type it plays the corresponding
precomputed buffer once through a fresh one-shot source at fixed output
gain 0.5 connected into the shared analysis tap, touching no other node and
mutating neither the stored buffers nor the drum-buffer map. -/
theorem c9_drum_trigger :
    (∀ (sr : ℕ) (t : String), t ≠ "kick" → t ≠ "snare" → t ≠ "hihat" →
      playDrumSound (initEngine sr) t = initEngine sr) ∧
    (∀ (s : EngineState) (c : Ctx) (a : ℕ) (t : String) (b : ℕ),
      s.audioContext = some c → s.analyser = some a →
      mapGet s.drumBuffers t = some b →
      playDrumSound s t = { s with audioContext := some (playDrumBody c a b) } ∧
      (playDrumBody c a b).node c.nextId = some { baseNode .bufferSource with
        buffer := some b, started := true, conns := [⟨c.nextId + 1, 0, 0⟩] } ∧
      (playDrumBody c a b).node (c.nextId + 1) = some { baseNode .gainNode with
        gain := 0.5, conns := [⟨a, 0, 0⟩] } ∧
      (∀ j, j ≠ c.nextId → j ≠ c.nextId + 1 →
        (playDrumBody c a b).node j = c.node j) ∧
      (playDrumBody c a b).buffers = c.buffers ∧
      (playDrumSound s t).drumBuffers = s.drumBuffers) := by
  constructor
  · intro sr t h1 h2 h3
    have hget : mapGet (initEngine sr).drumBuffers t = none := by
      rw [initEngine_drumBuffers]
      simp [mapGet, Ne.symm h1, Ne.symm h2, Ne.symm h3]
    simp only [playDrumSound, initEngine_audioContext, initEngine_analyser,
      hget]
  · intro s c a t b hc ha hget
    have hred : playDrumSound s t =
        { s with audioContext := some (playDrumBody c a b) } := by
      simp only [playDrumSound, hc, ha, hget]
    refine ⟨hred, playDrumBody_node_source c a b, playDrumBody_node_gain c a b,
      fun j hj0 hj1 => playDrumBody_node_old c a b j hj0 hj1,
      playDrumBody_buffers c a b, ?_⟩
    rw [hred]

/-- Witness for C9: an unknown type is a no-op on the initialized engine, and
triggering the kick plays buffer 0 through a fresh source and 0.5 gain. -/
theorem c9_drum_trigger_witness :
    (playDrumSound (initEngine 44100) "tom" = initEngine 44100) ∧
    (playDrumSound (initEngine 44100) "kick" =
      { initEngine 44100 with
        audioContext := some (playDrumBody (initCtx 44100) 1 0) } ∧
      (playDrumBody (initCtx 44100) 1 0).node (initCtx 44100).nextId =
        some { baseNode .bufferSource with
          buffer := some 0, started := true,
          conns := [⟨(initCtx 44100).nextId + 1, 0, 0⟩] } ∧
      (playDrumBody (initCtx 44100) 1 0).node ((initCtx 44100).nextId + 1) =
        some { baseNode .gainNode with
          gain := 0.5, conns := [⟨1, 0, 0⟩] } ∧
      (∀ j, j ≠ (initCtx 44100).nextId → j ≠ (initCtx 44100).nextId + 1 →
        (playDrumBody (initCtx 44100) 1 0).node j = (initCtx 44100).node j) ∧
      (playDrumBody (initCtx 44100) 1 0).buffers = (initCtx 44100).buffers ∧
      (playDrumSound (initEngine 44100) "kick").drumBuffers =
        (initEngine 44100).drumBuffers) :=
  ⟨c9_drum_trigger.1 44100 "tom" (by decide) (by decide) (by decide),
   c9_drum_trigger.2 (initEngine 44100) (initCtx 44100) 1 "kick" 0
     rfl rfl rfl⟩

end

noncomputable section

/-! ### Tearing down and rebuilding chords -/

theorem nodeStop_ok_shape (c : Ctx) (i : ℕ) (c2 : Ctx)
    (h : nodeStop c i = .ok c2) :
    ∃ n, c.node i = some n ∧ n.started = true ∧ n.stoppedFlag = false ∧
      c2 = setNodeAt c i { n with stoppedFlag := true } := by
  rcases hn : c.node i with _ | n
  · simp only [nodeStop, hn] at h
    exact Except.noConfusion h
  · simp only [nodeStop, hn] at h
    by_cases hcond : (n.started && !n.stoppedFlag) = true
    · rw [if_pos hcond] at h
      cases h
      simp only [Bool.and_eq_true, Bool.not_eq_true'] at hcond
      exact ⟨n, rfl, hcond.1, hcond.2, rfl⟩
    · rw [if_neg hcond] at h
      exact Except.noConfusion h

theorem tryStop_node_ne (c : Ctx) (i j : ℕ) (h : j ≠ i) :
    (tryStopAndDisconnect c i).node j = c.node j := by
  unfold tryStopAndDisconnect
  rcases hstop : nodeStop c i with e | c2
  · rfl
  · obtain ⟨n, hn, hs, hf, rfl⟩ := nodeStop_ok_shape c i c2 hstop
    rw [disconnectNode_node_ne _ _ _ h, setNodeAt_node_ne _ _ _ _ h]

theorem tryStop_misc (c : Ctx) (i : ℕ) :
    (tryStopAndDisconnect c i).nextId = c.nextId ∧
    (tryStopAndDisconnect c i).sampleRate = c.sampleRate ∧
    (tryStopAndDisconnect c i).currentTime = c.currentTime ∧
    (tryStopAndDisconnect c i).buffers = c.buffers := by
  unfold tryStopAndDisconnect
  rcases hstop : nodeStop c i with e | c2
  · exact ⟨rfl, rfl, rfl, rfl⟩
  · obtain ⟨n, hn, hs, hf, rfl⟩ := nodeStop_ok_shape c i c2 hstop
    refine ⟨?_, ?_, ?_, ?_⟩
    · rw [(disconnectNode_misc _ _).1, (setNodeAt_misc _ _ _).1]
    · rw [(disconnectNode_misc _ _).2.1, (setNodeAt_misc _ _ _).2.1]
    · rw [(disconnectNode_misc _ _).2.2.1, (setNodeAt_misc _ _ _).2.2.1]
    · rw [(disconnectNode_misc _ _).2.2.2, (setNodeAt_misc _ _ _).2.2.2]

theorem tryStop_stopped (c : Ctx) (i : ℕ) (n : Node) (hn : c.node i = some n)
    (hst : n.stoppedFlag = true) : tryStopAndDisconnect c i = c := by
  simp [tryStopAndDisconnect, nodeStop, hn, hst]

theorem tryStop_sourceOk (c : Ctx) (i : ℕ) (h : SourceOk c i) :
    ∃ n, c.node i = some n ∧ (tryStopAndDisconnect c i).node i =
      some { n with stoppedFlag := true, conns := [] } := by
  obtain ⟨n, hn, hs, hf, hstop⟩ := nodeStop_sourceOk c i h
  refine ⟨n, hn, ?_⟩
  unfold tryStopAndDisconnect
  rw [hstop, disconnectNode_node_self, setNodeAt_node_self]
  rfl

theorem tryStop_preserves_stopped (c : Ctx) (i j : ℕ)
    (h : ∃ n, c.node j = some n ∧ n.stoppedFlag = true ∧ n.conns = []) :
    ∃ n, (tryStopAndDisconnect c i).node j = some n ∧ n.stoppedFlag = true ∧
      n.conns = [] := by
  obtain ⟨n, hn, hst, hcn⟩ := h
  by_cases hij : j = i
  · subst hij
    rw [tryStop_stopped c j n hn hst]
    exact ⟨n, hn, hst, hcn⟩
  · exact ⟨n, by rw [tryStop_node_ne c i j hij]; exact hn, hst, hcn⟩

theorem foldStop_preserves_stopped : ∀ (l : List ℕ) (c : Ctx) (j : ℕ),
    (∃ n, c.node j = some n ∧ n.stoppedFlag = true ∧ n.conns = []) →
    ∃ n, (l.foldl tryStopAndDisconnect c).node j = some n ∧
      n.stoppedFlag = true ∧ n.conns = [] := by
  intro l
  induction l with
  | nil => intro c j h; exact h
  | cons t rest ih =>
    intro c j h
    rw [List.foldl_cons]
    exact ih _ j (tryStop_preserves_stopped c t j h)

theorem foldStop_stops : ∀ (l : List ℕ) (c : Ctx) (i : ℕ), i ∈ l →
    SourceOk c i →
    ∃ n, (l.foldl tryStopAndDisconnect c).node i = some n ∧
      n.stoppedFlag = true ∧ n.conns = [] := by
  intro l
  induction l with
  | nil => intro c i hmem; exact absurd hmem (List.not_mem_nil i)
  | cons t rest ih =>
    intro c i hmem hok
    rw [List.foldl_cons]
    by_cases hit : i = t
    · subst hit
      obtain ⟨n, hn, hstopped⟩ := tryStop_sourceOk c i hok
      exact foldStop_preserves_stopped rest _ i ⟨_, hstopped, rfl, rfl⟩
    · have hmem' : i ∈ rest := by
        rcases List.mem_cons.mp hmem with h | h
        · exact absurd h hit
        · exact h
      obtain ⟨n, hn, hs, hf⟩ := hok
      exact ih _ i hmem' ⟨n, by rw [tryStop_node_ne c t i hit]; exact hn, hs, hf⟩

theorem foldStop_node_ne : ∀ (l : List ℕ) (c : Ctx) (j : ℕ), j ∉ l →
    (l.foldl tryStopAndDisconnect c).node j = c.node j := by
  intro l
  induction l with
  | nil => intro c j _; rfl
  | cons t rest ih =>
    intro c j hj
    rw [List.foldl_cons,
      ih _ j (fun hh => hj (List.mem_cons_of_mem _ hh)),
      tryStop_node_ne c t j (fun hh => hj (hh ▸ List.mem_cons_self t rest))]

theorem foldStop_misc : ∀ (l : List ℕ) (c : Ctx),
    (l.foldl tryStopAndDisconnect c).nextId = c.nextId ∧
    (l.foldl tryStopAndDisconnect c).sampleRate = c.sampleRate ∧
    (l.foldl tryStopAndDisconnect c).currentTime = c.currentTime ∧
    (l.foldl tryStopAndDisconnect c).buffers = c.buffers := by
  intro l
  induction l with
  | nil => intro c; exact ⟨rfl, rfl, rfl, rfl⟩
  | cons t rest ih =>
    intro c
    rw [List.foldl_cons]
    obtain ⟨h1, h2, h3, h4⟩ := ih (tryStopAndDisconnect c t)
    obtain ⟨g1, g2, g3, g4⟩ := tryStop_misc c t
    exact ⟨h1.trans g1, h2.trans g2, h3.trans g3, h4.trans g4⟩

theorem stopChord_some (s : EngineState) (c : Ctx)
    (hc : s.audioContext = some c) :
    stopChord s = { s with
      audioContext := some (s.chordOscillators.foldl tryStopAndDisconnect c),
      chordOscillators := [] } := by
  simp only [stopChord, hc]

theorem chordOps_bounded (L N : ℕ) (octave : ℤ) (g : ℕ) (t : ℤ) :
    OpsBounded L (L + 2) (chordOps L N octave g t) := by
  simp [chordOps, OpsBounded]

theorem chordRun_node_osc (c : Ctx) (N : ℕ) (octave : ℤ) (g : ℕ) (t : ℤ) :
    (runOps c (chordOps c.nextId N octave g t)).node c.nextId =
      some { baseNode .oscillator with
             wave := .sine, freq := semitoneToFrequency t octave,
             started := true, conns := [⟨c.nextId + 1, 0, 0⟩] } := by
  simp [chordOps, runOps, runOp, addNode, modifyNode, setNodeAt, updFn,
    baseNode, Nat.add_assoc]

theorem chordRun_node_gain (c : Ctx) (N : ℕ) (octave : ℤ) (g : ℕ) (t : ℤ) :
    (runOps c (chordOps c.nextId N octave g t)).node (c.nextId + 1) =
      some { baseNode .gainNode with
             gain := 1 / (N : ℝ), conns := [⟨g, 0, 0⟩] } := by
  simp [chordOps, runOps, runOp, addNode, modifyNode, setNodeAt, updFn,
    baseNode, Nat.add_assoc]

theorem chordNoteStep_eq (notes : List ℤ) (octave : ℤ) (g : ℕ)
    (c : Ctx) (acc : List ℕ) (t : ℤ) :
    chordNoteStep notes octave g (c, acc) t =
      (runOps c (chordOps c.nextId notes.length octave g t),
        acc ++ [c.nextId]) := by
  simp [chordNoteStep, chordOps, runOps, runOp, createOscillator, createGain,
    addNode, setWave, setFreqValue, setGainValue, connect, nodeStart,
    modifyNode, setNodeAt, updFn, baseNode, Nat.add_assoc]

end

noncomputable section

theorem chordFold_spec : ∀ (rem notes : List ℤ) (octave : ℤ) (g : ℕ)
    (c : Ctx) (acc : List ℕ),
    ∃ c', rem.foldl (chordNoteStep notes octave g) (c, acc) =
        (c', acc ++ (List.range rem.length).map (fun k => c.nextId + 2 * k)) ∧
      c'.nextId = c.nextId + 2 * rem.length ∧
      (∀ j, j < c.nextId → c'.node j = c.node j) ∧
      (∀ k t, rem.get? k = some t →
        c'.node (c.nextId + 2 * k) = some { baseNode .oscillator with
          wave := .sine, freq := semitoneToFrequency t octave,
          started := true, conns := [⟨c.nextId + 2 * k + 1, 0, 0⟩] } ∧
        c'.node (c.nextId + 2 * k + 1) = some { baseNode .gainNode with
          gain := 1 / (notes.length : ℝ), conns := [⟨g, 0, 0⟩] }) := by
  intro rem
  induction rem with
  | nil =>
    intro notes octave g c acc
    refine ⟨c, by simp, by simp, fun j _ => rfl, fun k t hk => ?_⟩
    simp at hk
  | cons t rest ih =>
    intro notes octave g c acc
    rw [List.foldl_cons, chordNoteStep_eq]
    obtain ⟨c', hfold, hnx, hlow, hnodes⟩ :=
      ih notes octave g (runOps c (chordOps c.nextId notes.length octave g t))
        (acc ++ [c.nextId])
    have hnxA : (runOps c (chordOps c.nextId notes.length octave g t)).nextId
        = c.nextId + 2 := by
      rw [runOps_nextId]
      rfl
    refine ⟨c', ?_, ?_, ?_, ?_⟩
    · rw [hfold]
      refine congrArg _ ?_
      rw [List.length_cons, List.range_succ_eq_map, List.map_cons,
        List.map_map, List.append_assoc]
      refine congrArg _ ?_
      rw [show c.nextId + 2 * 0 = c.nextId from by omega, List.singleton_append]
      refine congrArg _ ?_
      refine List.map_congr_left (fun k _ => ?_)
      simp only [Function.comp]
      rw [hnxA]
      omega
    · rw [hnx, hnxA]
      simp only [List.length_cons]
      omega
    · intro j hj
      rw [hlow j (by omega)]
      exact runOps_node_low _ _ _ _ _ (chordOps_bounded _ _ _ _ _) le_rfl hj
    · intro k t' hk
      rcases k with _ | k'
      · simp only [List.get?_cons_zero, Option.some.injEq] at hk
        subst hk
        have h0 : c.nextId + 2 * 0 = c.nextId := by omega
        rw [h0]
        constructor
        · rw [hlow c.nextId (by omega)]
          exact chordRun_node_osc c notes.length octave g t
        · rw [hlow (c.nextId + 1) (by omega)]
          exact chordRun_node_gain c notes.length octave g t
      · simp only [List.get?_cons_succ] at hk
        have hidx : c.nextId + 2 * (k' + 1) =
            (runOps c (chordOps c.nextId notes.length octave g t)).nextId
              + 2 * k' := by
          rw [hnxA]; omega
        rw [hidx]
        exact hnodes k' t' hk

end

noncomputable section

/-! ### Claim C6 -/

/-- C6: for every non-empty note list, octave and volume, `playChord` first
releases any currently held chord (every previously held voice ends up
stopped and disconnected, and none of the new voice ids is an old one), then
creates one sine oscillator plus gain pair per note, each per-note gain equal
to `1 / noteCount`, all routed into a single chord-level gain equal to
`volume * 0.2` that is connected to the analyser. -/
theorem c6_play_chord (s : EngineState) (c : Ctx) (a : ℕ) (notes : List ℤ)
    (octave : ℤ) (volume : ℝ) (hne : notes ≠ []) (hv0 : 0 ≤ volume)
    (hv1 : volume ≤ 1) (hc : s.audioContext = some c) (ha : s.analyser = some a)
    (hold : ∀ i ∈ s.chordOscillators, i < c.nextId ∧ SourceOk c i) :
    ∃ c' G,
      (playChord s notes octave volume).audioContext = some c' ∧
      (playChord s notes octave volume).chordOscillators.length =
        notes.length ∧
      (∃ ng, c'.node G = some ng ∧ ng.kind = .gainNode ∧
        ng.gain = volume * 0.2 ∧ ng.conns = [⟨a, 0, 0⟩]) ∧
      (∀ k t, notes.get? k = some t → ∃ oid,
        (playChord s notes octave volume).chordOscillators.get? k =
          some oid ∧
        (∃ no, c'.node oid = some no ∧ no.kind = .oscillator ∧
          no.wave = .sine ∧ no.freq = semitoneToFrequency t octave ∧
          no.started = true ∧
          (∃ gid, no.conns = [⟨gid, 0, 0⟩] ∧
            (∃ ngn, c'.node gid = some ngn ∧ ngn.kind = .gainNode ∧
              ngn.gain = 1 / (notes.length : ℝ) ∧
              ngn.conns = [⟨G, 0, 0⟩])))) ∧
      (∀ i ∈ s.chordOscillators, ∃ n, c'.node i = some n ∧
        n.stoppedFlag = true ∧ n.conns = []) ∧
      (∀ i ∈ (playChord s notes octave volume).chordOscillators,
        i ∉ s.chordOscillators) := by
  set cF : Ctx := s.chordOscillators.foldl tryStopAndDisconnect c with hcF
  obtain ⟨hFnx, hFsr, hFct, hFbuf⟩ := foldStop_misc s.chordOscillators c
  rw [← hcF] at hFnx hFsr hFct hFbuf
  set cE : Ctx := connect (setGainValue (addNode cF (baseNode .gainNode)).2
    cF.nextId (volume * 0.2)) cF.nextId a with hcE
  have hEnx : cE.nextId = cF.nextId + 1 := by
    rw [hcE, connect, (modifyNode_misc _ _ _).1, setGainValue,
      (modifyNode_misc _ _ _).1, addNode_nextId]
  have hEg : cE.node cF.nextId = some { baseNode .gainNode with
      gain := volume * 0.2, conns := [⟨a, 0, 0⟩] } := by
    rw [hcE]
    simp [connect, setGainValue, addNode, modifyNode, setNodeAt, updFn,
      baseNode]
  have hEold : ∀ j, j ≠ cF.nextId → cE.node j = cF.node j := by
    intro j hj
    rw [hcE, connect, modifyNode_node_ne _ _ _ _ hj, setGainValue,
      modifyNode_node_ne _ _ _ _ hj, addNode_node_ne _ _ _ hj]
  obtain ⟨c', hfold, hnx, hlow, hnodes⟩ :=
    chordFold_spec notes notes octave cF.nextId cE []
  have hcg : createGain cF = (cF.nextId, (addNode cF (baseNode .gainNode)).2) :=
    rfl
  have hred : playChord s notes octave volume =
      { s with
        audioContext := some c'
        chordOscillators :=
          [] ++ (List.range notes.length).map (fun k => cE.nextId + 2 * k) } := by
    simp only [playChord, hc, ha, stopChord_some s c hc, ← hcF, hcg, ← hcE,
      hfold]
  refine ⟨c', cF.nextId, ?_, ?_, ?_, ?_, ?_, ?_⟩
  · rw [hred]
  · rw [hred]
    simp
  · have hG : c'.node cF.nextId = some { baseNode .gainNode with
        gain := volume * 0.2, conns := [⟨a, 0, 0⟩] } := by
      rw [hlow cF.nextId (by omega), hEg]
    exact ⟨_, hG, rfl, rfl, rfl⟩
  · intro k t hk
    obtain ⟨hklen, -⟩ := List.get?_eq_some.mp hk
    refine ⟨cE.nextId + 2 * k, ?_, ?_⟩
    · rw [hred]
      simp only [List.nil_append, List.get?_eq_getElem?, List.getElem?_map,
        List.getElem?_range hklen, Option.map_some']
    · obtain ⟨hosc, hgain⟩ := hnodes k t hk
      exact ⟨_, hosc, rfl, rfl, rfl, rfl,
        ⟨cE.nextId + 2 * k + 1, rfl, ⟨_, hgain, rfl, rfl, rfl⟩⟩⟩
  · intro i hi
    obtain ⟨hilt, hiok⟩ := hold i hi
    obtain ⟨n, hstopn, hf1, hf2⟩ := foldStop_stops s.chordOscillators c i hi hiok
    rw [← hcF] at hstopn
    have h1 : cE.node i = cF.node i := hEold i (by omega)
    have h2 : c'.node i = cE.node i := hlow i (by omega)
    exact ⟨n, by rw [h2, h1]; exact hstopn, hf1, hf2⟩
  · intro i hi hmem
    rw [hred] at hi
    simp only [List.nil_append, List.mem_map, List.mem_range] at hi
    obtain ⟨k, hkN, hik⟩ := hi
    have := (hold i hmem).1
    omega

end

noncomputable section

/-- Witness for C6: a C-major triad at octave 4 and volume 1/2 played on the
freshly initialized engine. -/
theorem c6_play_chord_witness :
    ∃ c' G,
      (playChord (initEngine 44100) [0, 4, 7] 4 (1/2)).audioContext =
        some c' ∧
      (playChord (initEngine 44100) [0, 4, 7] 4 (1/2)).chordOscillators.length
        = ([0, 4, 7] : List ℤ).length ∧
      (∃ ng, c'.node G = some ng ∧ ng.kind = .gainNode ∧
        ng.gain = (1:ℝ)/2 * 0.2 ∧ ng.conns = [⟨1, 0, 0⟩]) ∧
      (∀ k t, ([0, 4, 7] : List ℤ).get? k = some t → ∃ oid,
        (playChord (initEngine 44100) [0, 4, 7] 4 (1/2)).chordOscillators.get?
          k = some oid ∧
        (∃ no, c'.node oid = some no ∧ no.kind = .oscillator ∧
          no.wave = .sine ∧ no.freq = semitoneToFrequency t 4 ∧
          no.started = true ∧
          (∃ gid, no.conns = [⟨gid, 0, 0⟩] ∧
            (∃ ngn, c'.node gid = some ngn ∧ ngn.kind = .gainNode ∧
              ngn.gain = 1 / ((([0, 4, 7] : List ℤ).length : ℕ) : ℝ) ∧
              ngn.conns = [⟨G, 0, 0⟩])))) ∧
      (∀ i ∈ (initEngine 44100).chordOscillators, ∃ n, c'.node i = some n ∧
        n.stoppedFlag = true ∧ n.conns = []) ∧
      (∀ i ∈ (playChord (initEngine 44100) [0, 4, 7] 4 (1/2)).chordOscillators,
        i ∉ (initEngine 44100).chordOscillators) :=
  c6_play_chord (initEngine 44100) (initCtx 44100) 1 [0, 4, 7] 4 (1/2)
    (by decide) (by norm_num) (by norm_num) rfl rfl
    (fun i hi => absurd hi (List.not_mem_nil i))

end
